import Mathlib

/-!
Verification of the geometry/raster feature layer (`rasterio/features.py`).

The Python source operates on GeoJSON-like dictionaries, numpy arrays and
rational pixel/world coordinates.  The shallow embedding below models:

* a GeoJSON-like object as `GeoObj` (optional `type`, `coordinates`,
  `geometries` and `bbox` keys);
* nested coordinate arrays as `Coords` (a number leaf or an array node);
* Python expressions that may raise (`len` of a non-sequence, subscripting a
  number) as `Option`-valued computations, `none` meaning a raised exception;
* numpy numeric values as exact rationals `ℚ` (floating-point rounding is
  outside the model; range checks are exact).

Functions from this repository that are not under `src/` (the dtype helpers
of `rasterio.dtypes`, window arithmetic of `rasterio.windows`, the native
burn/bounds primitives and affine algebra) are modelled from the spec; each
such definition says so in its doc comment.
-/

/-- A GeoJSON coordinate structure: either a number (an ordinate) or an
array of nested structures.  `len()` of a number raises in Python; the
embedding returns `none` there. -/
inductive Coords where
  | num (x : ℚ)
  | arr (xs : List Coords)
deriving Repr

/-- A GeoJSON-like mapping as consumed by `features.py`: the `type`,
`coordinates`, `geometries` and `bbox` keys, each possibly absent. -/
inductive GeoObj where
  | mk (type? : Option String) (coordinates? : Option Coords)
      (geometries? : Option (List GeoObj)) (bbox? : Option (ℚ × ℚ × ℚ × ℚ))
deriving Repr

def GeoObj.type? : GeoObj → Option String
  | .mk t _ _ _ => t

def GeoObj.coordinates? : GeoObj → Option Coords
  | .mk _ c _ _ => c

def GeoObj.geometries? : GeoObj → Option (List GeoObj)
  | .mk _ _ g _ => g

def GeoObj.bbox? : GeoObj → Option (ℚ × ℚ × ℚ × ℚ)
  | .mk _ _ _ b => b

/-- Python `len(c)`: the length of an array, raising (`none`) on a number. -/
def clen : Coords → Option Nat
  | .num _ => none
  | .arr xs => some xs.length

/-- Python `c[i]`: subscription, raising (`none`) on a number or when the
index is out of range. -/
def getitem : Coords → Nat → Option Coords
  | .num _, _ => none
  | .arr xs, i => xs.get? i

/-- `len(c) >= k`, raising when `c` is not a sequence. -/
def lenGE (c : Coords) (k : Nat) : Option Bool :=
  (clen c).map (fun n => decide (k ≤ n))

/-- `len(c) > 0`, raising when `c` is not a sequence. -/
def lenGT0 (c : Coords) : Option Bool :=
  (clen c).map (fun n => decide (0 < n))

/-- Python short-circuit `and` over possibly-raising boolean expressions:
the right operand is only evaluated when the left is `True`. -/
def pyAnd (a : Option Bool) (b : Unit → Option Bool) : Option Bool :=
  match a with
  | none => none
  | some false => some false
  | some true => b ()

/-- The set of leaf geometry types recognised by `is_valid_geom`
(`features.py` lines 462-463). -/
def geom_types : List String :=
  ["Point", "MultiPoint", "LineString", "LinearRing",
   "MultiLineString", "Polygon", "MultiPolygon"]

/-- The per-leaf-type cardinality checks of `is_valid_geom`
(`features.py` lines 484-516), one branch per recognised leaf type, with
Python's short-circuit `and` and possibly-raising `len`/subscript. -/
def leaf_check (geom_type : String) (coords : Coords) : Option Bool :=
  if geom_type = "Point" then
    lenGE coords 2
  else if geom_type = "MultiPoint" then
    pyAnd (lenGT0 coords) fun _ =>
      (getitem coords 0).bind fun c0 => lenGE c0 2
  else if geom_type = "LineString" then
    pyAnd (lenGE coords 2) fun _ =>
      (getitem coords 0).bind fun c0 => lenGE c0 2
  else if geom_type = "LinearRing" then
    pyAnd (lenGE coords 4) fun _ =>
      (getitem coords 0).bind fun c0 => lenGE c0 2
  else if geom_type = "MultiLineString" then
    pyAnd (lenGT0 coords) fun _ =>
      (getitem coords 0).bind fun c0 =>
        pyAnd (lenGE c0 2) fun _ =>
          (getitem c0 0).bind fun c00 => lenGE c00 2
  else if geom_type = "Polygon" then
    pyAnd (lenGT0 coords) fun _ =>
      (getitem coords 0).bind fun c0 =>
        pyAnd (lenGE c0 4) fun _ =>
          (getitem c0 0).bind fun c00 => lenGE c00 2
  else
    pyAnd (lenGT0 coords) fun _ =>
      (getitem coords 0).bind fun c0 =>
        pyAnd (lenGT0 c0) fun _ =>
          (getitem c0 0).bind fun c00 =>
            pyAnd (lenGE c00 4) fun _ =>
              (getitem c00 0).bind fun c000 => lenGE c000 2

mutual

/-- Embedding of `is_valid_geom` (`features.py` lines 443-531).  Returns
`some b` when the Python function returns `b`, and `none` when it raises
(a `len()` or subscript applied to a number).  The geo-interface unwrapping
and the unhashable-`type` `TypeError` guard concern Python objects outside
the `GeoObj` dictionary model. -/
def is_valid_geom (g : GeoObj) : Option Bool :=
  match g with
  | .mk type? coordinates? geometries? _ =>
    match type? with
    | none => some false
    | some geom_type =>
      if ¬ (geom_type ∈ geom_types ∨ geom_type = "GeometryCollection") then
        some false
      else if geom_type ∈ geom_types then
        match coordinates? with
        | none => some false
        | some coords => leaf_check geom_type coords
      else
        match geometries? with
        | none => some false
        | some gs =>
          if gs.length = 0 then some false
          else members_valid gs

/-- The `for g in geom['geometries']` loop of `is_valid_geom`: every member
is checked in order, short-circuiting to `False` on the first invalid one
and propagating a raised exception. -/
def members_valid (gs : List GeoObj) : Option Bool :=
  match gs with
  | [] => some true
  | g :: rest =>
    match is_valid_geom g with
    | none => none
    | some false => some false
    | some true => members_valid rest

end

example :
    is_valid_geom (.mk (some "Point") (some (.arr [.num 1, .num 2])) none none)
      = some true := by
  simp [is_valid_geom, leaf_check, lenGE, clen, geom_types]

example :
    is_valid_geom (.mk (some "Point") (some (.arr [.num 1])) none none)
      = some false := by
  simp [is_valid_geom, leaf_check, lenGE, clen, geom_types]

example :
    is_valid_geom (.mk (some "GeometryCollection") none (some []) none)
      = some false := by
  simp [is_valid_geom, geom_types]

example :
    is_valid_geom (.mk none none none none) = some false := by
  simp [is_valid_geom]

example :
    is_valid_geom
      (.mk (some "Polygon")
        (some (.arr [.arr [.arr [.num 0, .num 0], .arr [.num 1, .num 0],
          .arr [.num 1, .num 1], .arr [.num 0, .num 0]]])) none none)
      = some true := by
  simp [is_valid_geom, leaf_check, pyAnd, lenGE, lenGT0, clen, getitem, geom_types]

lemma is_valid_geom_gc (c? : Option Coords) (b? : Option (ℚ × ℚ × ℚ × ℚ))
    (gs? : Option (List GeoObj)) :
    is_valid_geom (.mk (some "GeometryCollection") c? gs? b?) =
      match gs? with
      | none => some false
      | some gs => if gs.length = 0 then some false else members_valid gs := by
  rw [is_valid_geom.eq_def]
  simp [geom_types]

lemma is_valid_geom_gc_some (c? : Option Coords) (b? : Option (ℚ × ℚ × ℚ × ℚ))
    (gs : List GeoObj) :
    is_valid_geom (.mk (some "GeometryCollection") c? (some gs) b?) =
      if gs.length = 0 then some false else members_valid gs := by
  rw [is_valid_geom_gc]

lemma is_valid_geom_leaf (t : String) (ht : t ∈ geom_types)
    (c? : Option Coords) (gs? : Option (List GeoObj))
    (b? : Option (ℚ × ℚ × ℚ × ℚ)) :
    is_valid_geom (.mk (some t) c? gs? b?) =
      match c? with
      | none => some false
      | some c => leaf_check t c := by
  rw [is_valid_geom.eq_def]
  simp [ht]

lemma members_valid_false_of (pre : List GeoObj) (m : GeoObj) (post : List GeoObj)
    (h1 : ∀ x ∈ pre, is_valid_geom x = some true)
    (h2 : is_valid_geom m = some false) :
    members_valid (pre ++ m :: post) = some false := by
  induction pre with
  | nil => rw [List.nil_append, members_valid.eq_def]; simp [h2]
  | cons a as ih =>
    have ha : is_valid_geom a = some true := h1 a (by simp)
    rw [List.cons_append, members_valid.eq_def]
    simpa [ha] using ih (fun x hx => h1 x (by simp [hx]))

lemma members_valid_false_iff (gs : List GeoObj)
    (h : ∀ m ∈ gs, is_valid_geom m ≠ none) :
    members_valid gs = some false ↔ ∃ m ∈ gs, is_valid_geom m = some false := by
  induction gs with
  | nil => rw [members_valid.eq_def]; simp
  | cons a as ih =>
    cases hva : is_valid_geom a with
    | none => exact absurd hva (h a (by simp))
    | some b =>
      cases b
      · rw [members_valid.eq_def]
        simp [hva]
      · rw [show members_valid (a :: as) = members_valid as by
          rw [members_valid.eq_def]; simp [hva]]
        rw [ih (fun m hm => h m (by simp [hm]))]
        constructor
        · rintro ⟨m, hm, hfm⟩
          exact ⟨m, by simp [hm], hfm⟩
        · rintro ⟨m, hm, hfm⟩
          rcases List.mem_cons.mp hm with rfl | hm
          · rw [hva] at hfm; cases hfm
          · exact ⟨m, hm, hfm⟩

/-- C4: `is_valid_geom` on a `GeometryCollection` (with its `geometries` key
present) returns `False` iff the member list is empty or some member is
invalid (assuming every member check evaluates without raising); moreover it
short-circuits: as soon as the members before some invalid member are all
valid, the result is `False` regardless of the members after it. -/
theorem geometry_collection_validity (c? : Option Coords)
    (b? : Option (ℚ × ℚ × ℚ × ℚ)) (gs : List GeoObj) :
    ((∀ m ∈ gs, is_valid_geom m ≠ none) →
      (is_valid_geom (.mk (some "GeometryCollection") c? (some gs) b?) = some false ↔
        gs = [] ∨ ∃ m ∈ gs, is_valid_geom m = some false)) ∧
    (∀ pre m post, gs = pre ++ m :: post →
      (∀ x ∈ pre, is_valid_geom x = some true) →
      is_valid_geom m = some false →
      is_valid_geom (.mk (some "GeometryCollection") c? (some gs) b?) = some false) := by
  constructor
  · intro h
    rw [is_valid_geom_gc_some]
    rcases gs with _ | ⟨a, as⟩
    · simp
    · rw [if_neg (by simp)]
      rw [members_valid_false_iff _ h]
      simp
  · rintro pre m post rfl h1 h2
    rw [is_valid_geom_gc_some]
    rw [if_neg (by simp)]
    exact members_valid_false_of pre m post h1 h2

/-- Closed instance of `geometry_collection_validity`: a collection holding a
single empty-coordinates point is invalid. -/
theorem geometry_collection_validity_witness :
    is_valid_geom (GeoObj.mk (some "GeometryCollection") none
      (some [GeoObj.mk (some "Point") (some (.arr [])) none none]) none)
      = some false := by
  refine ((geometry_collection_validity none none
      [GeoObj.mk (some "Point") (some (.arr [])) none none]).1 ?_).mpr ?_
  · intro m hm
    simp only [List.mem_singleton] at hm
    subst hm
    rw [is_valid_geom_leaf _ (by simp [geom_types])]
    simp [leaf_check, lenGE, clen]
  · refine Or.inr ⟨GeoObj.mk (some "Point") (some (.arr [])) none none,
      by simp, ?_⟩
    rw [is_valid_geom_leaf _ (by simp [geom_types])]
    simp [leaf_check, lenGE, clen]

lemma lenGE_arr (xs : List Coords) (k : Nat) :
    lenGE (.arr xs) k = some (decide (k ≤ xs.length)) := rfl

lemma lenGE_arr_false (xs : List Coords) (k : Nat) (h : xs.length < k) :
    lenGE (.arr xs) k = some false := by
  rw [lenGE_arr]
  simp
  omega

lemma lenGE_arr_true (xs : List Coords) (k : Nat) (h : k ≤ xs.length) :
    lenGE (.arr xs) k = some true := by
  rw [lenGE_arr]
  simp [h]

lemma lenGT0_arr_true (xs : List Coords) (h : xs ≠ []) :
    lenGT0 (.arr xs) = some true := by
  simp [lenGT0, clen]
  exact List.length_pos.mpr h

lemma lenGT0_nil : lenGT0 (.arr []) = some false := rfl

lemma getitem_zero (xs : List Coords) : getitem (.arr xs) 0 = xs.head? := by
  cases xs <;> rfl

lemma pyAnd_true (f : Unit → Option Bool) : pyAnd (some true) f = f () := rfl

lemma pyAnd_false (f : Unit → Option Bool) : pyAnd (some false) f = some false := rfl

/-- A well-nested `Point` coordinate array below the minimum cardinality. -/
def point_fail : Coords → Bool
  | .arr xs => decide (xs.length < 2)
  | _ => false

/-- A well-nested `MultiPoint` coordinate array below the minimum
cardinality. -/
def multipoint_fail : Coords → Bool
  | .arr xs =>
    if xs.length = 0 then true
    else
      match xs.head? with
      | some (.arr ys) => decide (ys.length < 2)
      | _ => false
  | _ => false

/-- A well-nested `LineString` coordinate array below the minimum
cardinality. -/
def line_fail : Coords → Bool
  | .arr xs =>
    if xs.length < 2 then true
    else
      match xs.head? with
      | some (.arr ys) => decide (ys.length < 2)
      | _ => false
  | _ => false

/-- A well-nested `LinearRing` coordinate array below the minimum
cardinality. -/
def ring_fail : Coords → Bool
  | .arr xs =>
    if xs.length < 4 then true
    else
      match xs.head? with
      | some (.arr ys) => decide (ys.length < 2)
      | _ => false
  | _ => false

/-- A well-nested `MultiLineString` coordinate array below the minimum
cardinality. -/
def multiline_fail : Coords → Bool
  | .arr xs =>
    if xs.length = 0 then true
    else
      match xs.head? with
      | some (.arr ys) =>
        if ys.length < 2 then true
        else
          match ys.head? with
          | some (.arr zs) => decide (zs.length < 2)
          | _ => false
      | _ => false
  | _ => false

/-- A well-nested `Polygon` coordinate array below the minimum
cardinality. -/
def polygon_fail : Coords → Bool
  | .arr xs =>
    if xs.length = 0 then true
    else
      match xs.head? with
      | some (.arr ys) =>
        if ys.length < 4 then true
        else
          match ys.head? with
          | some (.arr zs) => decide (zs.length < 2)
          | _ => false
      | _ => false
  | _ => false

/-- A well-nested `MultiPolygon` coordinate array below the minimum
cardinality. -/
def multipolygon_fail : Coords → Bool
  | .arr xs =>
    if xs.length = 0 then true
    else
      match xs.head? with
      | some (.arr ys) =>
        if ys.length = 0 then true
        else
          match ys.head? with
          | some (.arr zs) =>
            if zs.length < 4 then true
            else
              match zs.head? with
              | some (.arr ws) => decide (ws.length < 2)
              | _ => false
          | _ => false
      | _ => false
  | _ => false

/-- Coordinate arrays failing the minimum structural cardinality of the
given leaf geometry `type` (§3 of the spec): each case makes the
corresponding boolean expression in `is_valid_geom` evaluate to `False`
without raising. -/
def cardinality_fail (t : String) (c : Coords) : Bool :=
  if t = "Point" then point_fail c
  else if t = "MultiPoint" then multipoint_fail c
  else if t = "LineString" then line_fail c
  else if t = "LinearRing" then ring_fail c
  else if t = "MultiLineString" then multiline_fail c
  else if t = "Polygon" then polygon_fail c
  else if t = "MultiPolygon" then multipolygon_fail c
  else false

/-- The structurally-bad inputs named by the spec: missing `type`,
unrecognised `type`, missing `coordinates`/`geometries`, or coordinate
arrays failing the type's minimum cardinality. -/
def bad_input (g : GeoObj) : Bool :=
  match g.type? with
  | none => true
  | some t =>
    if t ∈ geom_types then
      match g.coordinates? with
      | none => true
      | some c => cardinality_fail t c
    else if t = "GeometryCollection" then
      g.geometries?.isNone
    else
      true

lemma point_case (c : Coords) (h : point_fail c = true) :
    leaf_check "Point" c = some false := by
  rcases c with x | xs
  · simp [point_fail] at h
  · simp only [point_fail, decide_eq_true_eq] at h
    have he : leaf_check "Point" (.arr xs) = lenGE (.arr xs) 2 := by
      simp [leaf_check]
    rw [he]
    exact lenGE_arr_false xs 2 h

lemma multipoint_case (c : Coords) (h : multipoint_fail c = true) :
    leaf_check "MultiPoint" c = some false := by
  rcases c with x | xs
  · simp [multipoint_fail] at h
  · have he : leaf_check "MultiPoint" (.arr xs) =
        pyAnd (lenGT0 (.arr xs)) fun _ =>
          (getitem (.arr xs) 0).bind fun c0 => lenGE c0 2 := by
      simp [leaf_check]
    rw [he]
    rcases xs with _ | ⟨y, rest⟩
    · rw [lenGT0_nil, pyAnd_false]
    · rw [lenGT0_arr_true _ (by simp), pyAnd_true, getitem_zero]
      simp only [List.head?_cons, Option.some_bind]
      rcases y with z | ys
      · simp [multipoint_fail] at h
      · simp only [multipoint_fail, List.head?_cons] at h
        rw [if_neg (by simp)] at h
        simp only [decide_eq_true_eq] at h
        exact lenGE_arr_false ys 2 h

lemma line_case (c : Coords) (h : line_fail c = true) :
    leaf_check "LineString" c = some false := by
  rcases c with x | xs
  · simp [line_fail] at h
  · have he : leaf_check "LineString" (.arr xs) =
        pyAnd (lenGE (.arr xs) 2) fun _ =>
          (getitem (.arr xs) 0).bind fun c0 => lenGE c0 2 := by
      simp [leaf_check]
    rw [he]
    by_cases hl : xs.length < 2
    · rw [lenGE_arr_false xs 2 hl, pyAnd_false]
    · push_neg at hl
      rw [lenGE_arr_true xs 2 hl, pyAnd_true, getitem_zero]
      rcases xs with _ | ⟨y, rest⟩
      · simp at hl
      · simp only [List.head?_cons, Option.some_bind]
        rcases y with z | ys
        · simp only [line_fail, List.head?_cons] at h
          rw [if_neg (by simp at hl ⊢; omega)] at h
          simp at h
        · simp only [line_fail, List.head?_cons] at h
          rw [if_neg (by simp at hl ⊢; omega)] at h
          simp only [decide_eq_true_eq] at h
          exact lenGE_arr_false ys 2 h

lemma ring_case (c : Coords) (h : ring_fail c = true) :
    leaf_check "LinearRing" c = some false := by
  rcases c with x | xs
  · simp [ring_fail] at h
  · have he : leaf_check "LinearRing" (.arr xs) =
        pyAnd (lenGE (.arr xs) 4) fun _ =>
          (getitem (.arr xs) 0).bind fun c0 => lenGE c0 2 := by
      simp [leaf_check]
    rw [he]
    by_cases hl : xs.length < 4
    · rw [lenGE_arr_false xs 4 hl, pyAnd_false]
    · push_neg at hl
      rw [lenGE_arr_true xs 4 hl, pyAnd_true, getitem_zero]
      rcases xs with _ | ⟨y, rest⟩
      · simp at hl
      · simp only [List.head?_cons, Option.some_bind]
        rcases y with z | ys
        · simp only [ring_fail, List.head?_cons] at h
          rw [if_neg (by simp at hl ⊢; omega)] at h
          simp at h
        · simp only [ring_fail, List.head?_cons] at h
          rw [if_neg (by simp at hl ⊢; omega)] at h
          simp only [decide_eq_true_eq] at h
          exact lenGE_arr_false ys 2 h

lemma multiline_case (c : Coords) (h : multiline_fail c = true) :
    leaf_check "MultiLineString" c = some false := by
  rcases c with x | xs
  · simp [multiline_fail] at h
  · have he : leaf_check "MultiLineString" (.arr xs) =
        pyAnd (lenGT0 (.arr xs)) fun _ =>
          (getitem (.arr xs) 0).bind fun c0 =>
            pyAnd (lenGE c0 2) fun _ =>
              (getitem c0 0).bind fun c00 => lenGE c00 2 := by
      simp [leaf_check]
    rw [he]
    rcases xs with _ | ⟨y, rest⟩
    · rw [lenGT0_nil, pyAnd_false]
    · rw [lenGT0_arr_true _ (by simp), pyAnd_true, getitem_zero]
      simp only [List.head?_cons, Option.some_bind]
      rcases y with z | ys
      · simp [multiline_fail] at h
      · simp only [multiline_fail, List.head?_cons] at h
        rw [if_neg (by simp)] at h
        by_cases hy : ys.length < 2
        · rw [lenGE_arr_false ys 2 hy, pyAnd_false]
        · rw [if_neg hy] at h
          push_neg at hy
          rw [lenGE_arr_true ys 2 hy, pyAnd_true, getitem_zero]
          rcases ys with _ | ⟨w, yrest⟩
          · simp at hy
          · simp only [List.head?_cons, Option.some_bind] at h ⊢
            rcases w with v | zs
            · simp at h
            · simp only [decide_eq_true_eq] at h
              exact lenGE_arr_false zs 2 h

lemma polygon_case (c : Coords) (h : polygon_fail c = true) :
    leaf_check "Polygon" c = some false := by
  rcases c with x | xs
  · simp [polygon_fail] at h
  · have he : leaf_check "Polygon" (.arr xs) =
        pyAnd (lenGT0 (.arr xs)) fun _ =>
          (getitem (.arr xs) 0).bind fun c0 =>
            pyAnd (lenGE c0 4) fun _ =>
              (getitem c0 0).bind fun c00 => lenGE c00 2 := by
      simp [leaf_check]
    rw [he]
    rcases xs with _ | ⟨y, rest⟩
    · rw [lenGT0_nil, pyAnd_false]
    · rw [lenGT0_arr_true _ (by simp), pyAnd_true, getitem_zero]
      simp only [List.head?_cons, Option.some_bind]
      rcases y with z | ys
      · simp [polygon_fail] at h
      · simp only [polygon_fail, List.head?_cons] at h
        rw [if_neg (by simp)] at h
        by_cases hy : ys.length < 4
        · rw [lenGE_arr_false ys 4 hy, pyAnd_false]
        · rw [if_neg hy] at h
          push_neg at hy
          rw [lenGE_arr_true ys 4 hy, pyAnd_true, getitem_zero]
          rcases ys with _ | ⟨w, yrest⟩
          · simp at hy
          · simp only [List.head?_cons, Option.some_bind] at h ⊢
            rcases w with v | zs
            · simp at h
            · simp only [decide_eq_true_eq] at h
              exact lenGE_arr_false zs 2 h

lemma multipolygon_case (c : Coords) (h : multipolygon_fail c = true) :
    leaf_check "MultiPolygon" c = some false := by
  rcases c with x | xs
  · simp [multipolygon_fail] at h
  · have he : leaf_check "MultiPolygon" (.arr xs) =
        pyAnd (lenGT0 (.arr xs)) fun _ =>
          (getitem (.arr xs) 0).bind fun c0 =>
            pyAnd (lenGT0 c0) fun _ =>
              (getitem c0 0).bind fun c00 =>
                pyAnd (lenGE c00 4) fun _ =>
                  (getitem c00 0).bind fun c000 => lenGE c000 2 := by
      simp [leaf_check]
    rw [he]
    rcases xs with _ | ⟨y, rest⟩
    · rw [lenGT0_nil, pyAnd_false]
    · rw [lenGT0_arr_true _ (by simp), pyAnd_true, getitem_zero]
      simp only [List.head?_cons, Option.some_bind]
      rcases y with z | ys
      · simp [multipolygon_fail] at h
      · simp only [multipolygon_fail, List.head?_cons] at h
        rw [if_neg (by simp)] at h
        rcases ys with _ | ⟨w, yrest⟩
        · rw [lenGT0_nil, pyAnd_false]
        · rw [lenGT0_arr_true _ (by simp), pyAnd_true, getitem_zero]
          rw [if_neg (by simp)] at h
          simp only [List.head?_cons, Option.some_bind] at h ⊢
          rcases w with v | zs
          · simp at h
          · have h2 : (if zs.length < 4 then true
                else
                  match zs.head? with
                  | some (.arr ws) => decide (ws.length < 2)
                  | _ => false) = true := h
            clear h
            by_cases hz : zs.length < 4
            · rw [lenGE_arr_false zs 4 hz, pyAnd_false]
            · rw [if_neg hz] at h2
              push_neg at hz
              rw [lenGE_arr_true zs 4 hz, pyAnd_true, getitem_zero]
              rcases zs with _ | ⟨u, zrest⟩
              · simp at hz
              · simp only [List.head?_cons, Option.some_bind] at h2 ⊢
                rcases u with q | ws
                · simp at h2
                · simp only [decide_eq_true_eq] at h2
                  exact lenGE_arr_false ws 2 h2

lemma leaf_check_of_cardinality_fail (t : String) (ht : t ∈ geom_types)
    (c : Coords) (h : cardinality_fail t c = true) :
    leaf_check t c = some false := by
  simp only [geom_types, List.mem_cons, List.not_mem_nil, or_false] at ht
  rcases ht with rfl | rfl | rfl | rfl | rfl | rfl | rfl
  · exact point_case c (by simpa [cardinality_fail] using h)
  · exact multipoint_case c (by simpa [cardinality_fail] using h)
  · exact line_case c (by simpa [cardinality_fail] using h)
  · exact ring_case c (by simpa [cardinality_fail] using h)
  · exact multiline_case c (by simpa [cardinality_fail] using h)
  · exact polygon_case c (by simpa [cardinality_fail] using h)
  · exact multipolygon_case c (by simpa [cardinality_fail] using h)

/-- C9: on every structurally-bad input — missing `type`, unrecognised
`type`, missing `coordinates`/`geometries`, or well-nested coordinate
arrays failing the type's minimum cardinality — `is_valid_geom` returns
`False` and does not raise. -/
theorem is_valid_geom_safe (g : GeoObj) (h : bad_input g = true) :
    is_valid_geom g = some false := by
  obtain ⟨t?, c?, gs?, b?⟩ := g
  cases t? with
  | none => rw [is_valid_geom.eq_def]
  | some t =>
    by_cases ht : t ∈ geom_types
    · rw [is_valid_geom_leaf t ht]
      cases c? with
      | none => rfl
      | some c =>
        simp only [bad_input, GeoObj.type?, GeoObj.coordinates?,
          if_pos ht] at h
        exact leaf_check_of_cardinality_fail t ht c h
    · by_cases hgc : t = "GeometryCollection"
      · subst hgc
        simp only [bad_input, GeoObj.type?, GeoObj.geometries?, if_neg ht,
          if_true, Option.isNone_iff_eq_none] at h
        subst h
        rw [is_valid_geom_gc]
      · rw [is_valid_geom.eq_def]
        simp [ht, hgc]

/-- Closed instance of `is_valid_geom_safe`: a `LineString` with a single
coordinate is bad input and is reported invalid without raising. -/
theorem is_valid_geom_safe_witness :
    bad_input (GeoObj.mk (some "LineString")
        (some (.arr [.arr [.num 0, .num 1]])) none none) = true ∧
    is_valid_geom (GeoObj.mk (some "LineString")
        (some (.arr [.arr [.num 0, .num 1]])) none none) = some false :=
  ⟨rfl, is_valid_geom_safe _ rfl⟩

/-- The numpy dtype names that can reach `rasterize`'s dtype logic. -/
inductive NpDtype where
  | int8 | int16 | int32 | int64 | uint8 | uint16 | uint32 | uint64
  | float16 | float32 | float64
deriving DecidableEq, Repr

/-- The admissible dtype lattice of `rasterize`
(`features.py` lines 229-231). -/
def valid_dtypes : List NpDtype :=
  [.int16, .int32, .uint8, .uint16, .uint32, .float32, .float64]

/-- Modelled from the spec: whether a numeric kind can hold a value
(§3 dtype lattice; a "minimum dtype" is computed from a numeric range).
Integer kinds require an integral value in range; `float64` holds every
value of the rational model (float range/precision is outside the
embedding). -/
def can_hold : NpDtype → ℚ → Bool
  | .uint8, v => decide (v.den = 1 ∧ 0 ≤ v ∧ v ≤ 255)
  | .uint16, v => decide (v.den = 1 ∧ 0 ≤ v ∧ v ≤ 65535)
  | .uint32, v => decide (v.den = 1 ∧ 0 ≤ v ∧ v ≤ 4294967295)
  | .uint64, v => decide (v.den = 1 ∧ 0 ≤ v ∧ v ≤ 18446744073709551615)
  | .int8, v => decide (v.den = 1 ∧ -128 ≤ v ∧ v ≤ 127)
  | .int16, v => decide (v.den = 1 ∧ -32768 ≤ v ∧ v ≤ 32767)
  | .int32, v => decide (v.den = 1 ∧ -2147483648 ≤ v ∧ v ≤ 2147483647)
  | .int64, v =>
    decide (v.den = 1 ∧ -9223372036854775808 ≤ v ∧ v ≤ 9223372036854775807)
  | .float16, v => decide (-65504 ≤ v ∧ v ≤ 65504)
  | .float32, v =>
    decide (-340282346638528859811704183484516925440 ≤ v ∧
      v ≤ 340282346638528859811704183484516925440)
  | .float64, _ => true

/-- Modelled from the spec (§4.2 rule 5; `get_minimum_dtype` of
`rasterio.dtypes` is not under `src/`): the smallest lattice member that
can hold every value — unsigned widening chain for non-negative integral
values, signed chain when a negative value is present, float chain when a
non-integral value is present. -/
def get_minimum_dtype (vs : List ℚ) : NpDtype :=
  if vs.all fun v => decide (v.den = 1) then
    if vs.all fun v => decide (0 ≤ v) then
      if vs.all (can_hold .uint8) then .uint8
      else if vs.all (can_hold .uint16) then .uint16
      else if vs.all (can_hold .uint32) then .uint32
      else if vs.all (can_hold .float32) then .float32
      else .float64
    else
      if vs.all (can_hold .int16) then .int16
      else if vs.all (can_hold .int32) then .int32
      else if vs.all (can_hold .float32) then .float32
      else .float64
  else
    if vs.all (can_hold .float32) then .float32
    else .float64

/-- Modelled from the spec (§4.2 rule 4; `validate_dtype` of
`rasterio.dtypes` is not under `src/`): the values are representable in
the admissible lattice, i.e. their minimum dtype is a lattice member.  In
the rational model the `float64` fallback makes this always true; the
non-lattice numpy kinds it rejects (complex, str, ...) have no
counterpart here. -/
def validate_dtype (vs : List ℚ) : Bool :=
  valid_dtypes.contains (get_minimum_dtype vs)

/-- Modelled from the spec (§4.2 rule 6; `can_cast_dtype` of
`rasterio.dtypes` is not under `src/`): every value is losslessly
representable in the requested dtype. -/
def can_cast_dtype (vs : List ℚ) (d : NpDtype) : Bool :=
  vs.all (can_hold d)

lemma get_minimum_dtype_mem (vs : List ℚ) :
    get_minimum_dtype vs ∈ valid_dtypes := by
  unfold get_minimum_dtype
  split_ifs <;> simp [valid_dtypes]

lemma validate_dtype_true (vs : List ℚ) : validate_dtype vs = true := by
  simp [validate_dtype, List.elem_iff]
  exact get_minimum_dtype_mem vs

/-- One element of `rasterize`'s `shapes` iterable: a `(geometry, value)`
pair (whose value may be the explicit Python `None`) or a bare geometry. -/
inductive ShapeItem where
  | pair (g : GeoObj) (v : Option ℚ)
  | bare (g : GeoObj)
deriving Repr

/-- The merge algorithms of `rasterize` (`MergeAlg.replace` / `MergeAlg.add`). -/
inductive MergeKind where
  | replace
  | add
deriving DecidableEq, Repr

/-- A numpy raster buffer: a dtype tag, a numpy shape, and per-pixel
values (exact rationals; `data` is total, pixels outside `shape` are
irrelevant to the claims). -/
structure Raster where
  dtype : NpDtype
  shape : List Nat
  data : Nat × Nat → ℚ

/-- The typed errors `rasterize` raises (all `ValueError` in Python,
distinguished here by their messages, `features.py` lines 233-239 and
291-324).  `typeError` is a Python `TypeError` propagating out of
`is_valid_geom`. -/
inductive RErr where
  | invalidDtype (param : String)
  | castError (param : String)
  | noValidGeometry
  | invalidOutShape
  | noOutputProvided
  | zeroSize
  | typeError
deriving DecidableEq, Repr

/-- Modelled from the spec (§6: `rasterize_burn(shapes, output_buffer,
transform, all_touched, merge_algorithm)`; the native `_rasterize` is not
under `src/`): the scan-conversion decision (transform plus `all_touched`)
is abstracted as a coverage predicate `cov`; each shape burns its value
into the pixels it covers, in order, replacing or adding per the merge
algorithm, and leaves all other pixels untouched. -/
def burn_step (cov : GeoObj → Nat × Nat → Bool) (merge_alg : MergeKind)
    (b : Nat × Nat → ℚ) (gv : GeoObj × ℚ) : Nat × Nat → ℚ :=
  fun p =>
    if cov gv.1 p then
      match merge_alg with
      | .replace => gv.2
      | .add => b p + gv.2
    else b p

def rasterize_burn (cov : GeoObj → Nat × Nat → Bool)
    (shapes : List (GeoObj × ℚ)) (merge_alg : MergeKind)
    (buf : Nat × Nat → ℚ) : Nat × Nat → ℚ :=
  shapes.foldl (burn_step cov merge_alg) buf

/-- Value resolution for one item of the `shapes` iterable
(`features.py` lines 262-269): explicit `None` value becomes `fill`, a
bare geometry gets `default_value`. -/
def item_geom_value (fill default_value : ℚ) : ShapeItem → GeoObj × ℚ
  | .pair g none => (g, fill)
  | .pair g (some v) => (g, v)
  | .bare g => (g, default_value)

/-- `GeometryCollection` flattening of a valid geometry
(`features.py` lines 275-285): a collection contributes its first-level
members, each with the item's value; anything else contributes itself. -/
def flatten_item (g : GeoObj) (v : ℚ) : List (GeoObj × ℚ) :=
  if g.type? = some "GeometryCollection" then
    (g.geometries?.getD []).map (fun part => (part, v))
  else
    [(g, v)]

/-- The validation/normalization loop of `rasterize`
(`features.py` lines 260-289): walks the items with their index,
resolving values, skipping invalid geometries with a warning recording
the index, and flattening collections.  Returns
`(valid_shapes, shape_values, warned_indices)`, or `none` when
`is_valid_geom` raises. -/
def process_shapes (fill default_value : ℚ) :
    Nat → List ShapeItem →
      Option (List (GeoObj × ℚ) × List ℚ × List Nat)
  | _, [] => some ([], [], [])
  | index, item :: rest =>
    let gv := item_geom_value fill default_value item
    match is_valid_geom gv.1 with
    | none => none
    | some true =>
      (process_shapes fill default_value (index + 1) rest).map fun r =>
        (flatten_item gv.1 gv.2 ++ r.1, gv.2 :: r.2.1, r.2.2)
    | some false =>
      (process_shapes fill default_value (index + 1) rest).map fun r =>
        (r.1, r.2.1, index :: r.2.2)

/-- The `dtype is not None and not can_cast_dtype(..., dtype)` guard of
`features.py` lines 246 and 254. -/
def cast_to_explicit_fails (v : ℚ) (dtype : Option NpDtype) : Bool :=
  match dtype with
  | some d => !(can_cast_dtype [v] d)
  | none => false

/-- The `fill` / `default_value` / explicit-`dtype` checks that run before
the shape loop (`features.py` lines 241-258), in source order; `none`
means they all pass. -/
def rasterize_prechecks (fill default_value : ℚ)
    (dtype : Option NpDtype) : Option RErr :=
  if fill ≠ 0 ∧ validate_dtype [fill] = false then
    some (.invalidDtype "fill")
  else if fill ≠ 0 ∧ cast_to_explicit_fails fill dtype = true then
    some (.castError "fill")
  else if default_value ≠ 1 ∧ validate_dtype [default_value] = false then
    some (.invalidDtype "default_value")
  else if default_value ≠ 1 ∧
      cast_to_explicit_fails default_value dtype = true then
    some (.castError "default_vaue")
  else if (match dtype with
      | some d => decide (d ∉ valid_dtypes)
      | none => false) = true then
    some (.invalidDtype "dtype")
  else
    none

/-- Output resolution and burn (`features.py` lines 305-328): an existing
buffer must have a lattice dtype able to hold the shape values; otherwise
a fresh buffer of shape `out_shape` (which must be 2-D) is allocated with
dtype `dt` and filled with `fill`; both axes must be non-zero; finally the
shapes are burned in place. -/
def rasterize_alloc (cov : GeoObj → Nat × Nat → Bool)
    (valid_shapes : List (GeoObj × ℚ)) (shape_values : List ℚ) (fill : ℚ)
    (out : Option Raster) (out_shape : Option (List Nat))
    (merge_alg : MergeKind) (dt : NpDtype) : Except RErr Raster :=
  match out with
  | some o =>
    if o.dtype ∉ valid_dtypes then
      .error (.invalidDtype "out")
    else if can_cast_dtype shape_values o.dtype = false then
      .error (.castError "shape values")
    else if o.shape.contains 0 then
      .error .zeroSize
    else
      .ok { o with data := rasterize_burn cov valid_shapes merge_alg o.data }
  | none =>
    match out_shape with
    | some sh =>
      if sh.length ≠ 2 then
        .error .invalidOutShape
      else if sh.contains 0 then
        .error .zeroSize
      else
        .ok ⟨dt, sh, rasterize_burn cov valid_shapes merge_alg (fun _ => fill)⟩
    | none => .error .noOutputProvided

/-- Embedding of `rasterize` (`features.py` lines 166-328).  Returns the
warned indices together with either a typed error or the resulting
raster.  The affine transform and `all_touched` flag live inside the
coverage predicate `cov` consumed by the (spec-modelled) native burn. -/
def rasterize (cov : GeoObj → Nat × Nat → Bool) (shapes : List ShapeItem)
    (out_shape : Option (List Nat)) (fill : ℚ) (out : Option Raster)
    (merge_alg : MergeKind) (default_value : ℚ)
    (dtype : Option NpDtype) : List Nat × Except RErr Raster :=
  match rasterize_prechecks fill default_value dtype with
  | some e => ([], .error e)
  | none =>
    match process_shapes fill default_value 0 shapes with
    | none => ([], .error .typeError)
    | some (valid_shapes, shape_values, warns) =>
      (warns,
        if valid_shapes.isEmpty then
          .error .noValidGeometry
        else if validate_dtype shape_values = false then
          .error (.invalidDtype "shape values")
        else
          match dtype with
          | none =>
            rasterize_alloc cov valid_shapes shape_values fill out out_shape
              merge_alg (get_minimum_dtype (shape_values ++ [fill]))
          | some d =>
            if can_cast_dtype shape_values d = false then
              .error (.castError "shape values")
            else
              rasterize_alloc cov valid_shapes shape_values fill out out_shape
                merge_alg d)

/-- A boolean raster, the result of `.astype('bool')`. -/
structure BRaster where
  shape : List Nat
  data : Nat × Nat → Bool

/-- numpy `.astype('bool')`: a pixel is `True` iff its value is nonzero. -/
def astype_bool (r : Raster) : BRaster :=
  ⟨r.shape, fun p => decide (r.data p ≠ 0)⟩

/-- Embedding of `geometry_mask` (`features.py` lines 26-68): rasterize
with `(fill, mask_value) = (0, 1)` if `invert` else `(1, 0)` and cast the
result to bool. -/
def geometry_mask (cov : GeoObj → Nat × Nat → Bool)
    (geometries : List ShapeItem) (out_shape : List Nat)
    (invert : Bool) : List Nat × Except RErr BRaster :=
  let fv := if invert then ((0 : ℚ), (1 : ℚ)) else ((1 : ℚ), (0 : ℚ))
  let r := rasterize cov geometries (some out_shape) fv.1 none
    .replace fv.2 none
  (r.1, r.2.map astype_bool)

lemma prechecks_none_dtype (fill dv : ℚ) :
    rasterize_prechecks fill dv none = none := by
  simp [rasterize_prechecks, validate_dtype_true, cast_to_explicit_fails]

lemma rasterize_burn_untouched (cov : GeoObj → Nat × Nat → Bool)
    (shapes : List (GeoObj × ℚ)) (m : MergeKind) (buf : Nat × Nat → ℚ)
    (p : Nat × Nat) (h : ∀ gv ∈ shapes, cov gv.1 p = false) :
    rasterize_burn cov shapes m buf p = buf p := by
  induction shapes generalizing buf with
  | nil => rfl
  | cons gv rest ih =>
    have h0 : cov gv.1 p = false := h gv (by simp)
    have step : burn_step cov m buf gv p = buf p := by
      simp [burn_step, h0]
    have := ih (burn_step cov m buf gv) (fun x hx => h x (by simp [hx]))
    rw [show rasterize_burn cov (gv :: rest) m buf =
      rasterize_burn cov rest m (burn_step cov m buf gv) from rfl]
    rw [this, step]

lemma rasterize_burn_replace_covered (cov : GeoObj → Nat × Nat → Bool)
    (shapes : List (GeoObj × ℚ)) (buf : Nat × Nat → ℚ) (p : Nat × Nat)
    (v0 : ℚ) (hv : ∀ gv ∈ shapes, gv.2 = v0)
    (hc : ∃ gv ∈ shapes, cov gv.1 p = true) :
    rasterize_burn cov shapes .replace buf p = v0 := by
  induction shapes generalizing buf with
  | nil => simp at hc
  | cons gv rest ih =>
    by_cases hrest : ∃ gv2 ∈ rest, cov gv2.1 p = true
    · exact ih _ (fun x hx => hv x (by simp [hx])) hrest
    · push_neg at hrest
      have hall : ∀ gv2 ∈ rest, cov gv2.1 p = false := by
        intro x hx
        simpa using hrest x hx
      have hcg : cov gv.1 p = true := by
        rcases hc with ⟨x, hx, hcx⟩
        rcases List.mem_cons.mp hx with rfl | hx2
        · exact hcx
        · exact absurd hcx (by simp [hall x hx2])
      have hb := rasterize_burn_untouched cov rest .replace
        (burn_step cov .replace buf gv) p hall
      rw [show rasterize_burn cov (gv :: rest) .replace buf =
        rasterize_burn cov rest .replace (burn_step cov .replace buf gv)
        from rfl]
      rw [hb]
      simp [burn_step, hcg, hv gv (by simp)]

lemma rasterize_fresh_ok (cov : GeoObj → Nat × Nat → Bool)
    (shapes : List ShapeItem) (fill : ℚ) (merge_alg : MergeKind) (dv : ℚ)
    (r c : Nat) (vs : List (GeoObj × ℚ)) (svs : List ℚ) (ws : List Nat)
    (hps : process_shapes fill dv 0 shapes = some (vs, svs, ws))
    (hvs : vs ≠ []) (hr : r ≠ 0) (hc : c ≠ 0) :
    rasterize cov shapes (some [r, c]) fill none merge_alg dv none =
      (ws, .ok ⟨get_minimum_dtype (svs ++ [fill]), [r, c],
        rasterize_burn cov vs merge_alg (fun _ => fill)⟩) := by
  simp only [rasterize, prechecks_none_dtype, hps]
  rw [if_neg (by simp [hvs])]
  rw [if_neg (by simp [validate_dtype_true])]
  simp only [rasterize_alloc]
  rw [if_neg (by simp)]
  rw [if_neg (by
    simp only [List.contains_cons, List.contains_nil, Bool.or_eq_true,
      beq_iff_eq]
    push_neg
    constructor
    · omega
    · simp
      omega)]

/-- C7: `rasterize` item normalization — a `(geometry, None)` pair resolves
to the fill value, a bare geometry to `default_value`; a valid
`GeometryCollection` contributes exactly its first-level members, each
inheriting the item's value, while any other valid geometry contributes
itself; and the validation loop records these contributions. -/
theorem rasterize_item_normalization (fill dv : ℚ) :
    (∀ g, item_geom_value fill dv (.pair g none) = (g, fill)) ∧
    (∀ g, item_geom_value fill dv (.bare g) = (g, dv)) ∧
    (∀ c? b? (parts : List GeoObj) (v : ℚ),
      flatten_item (GeoObj.mk (some "GeometryCollection") c? (some parts) b?) v
        = parts.map (fun part => (part, v))) ∧
    (∀ (g : GeoObj) (v : ℚ), g.type? ≠ some "GeometryCollection" →
      flatten_item g v = [(g, v)]) ∧
    (∀ (index : Nat) (item : ShapeItem) (rest : List ShapeItem),
      is_valid_geom (item_geom_value fill dv item).1 = some true →
      process_shapes fill dv index (item :: rest) =
        (process_shapes fill dv (index + 1) rest).map fun r =>
          (flatten_item (item_geom_value fill dv item).1
              (item_geom_value fill dv item).2 ++ r.1,
            (item_geom_value fill dv item).2 :: r.2.1, r.2.2)) := by
  refine ⟨fun g => rfl, fun g => rfl, ?_, ?_, ?_⟩
  · intro c? b? parts v
    simp [flatten_item, GeoObj.type?, GeoObj.geometries?]
  · intro g v h
    simp [flatten_item, h]
  · intro index item rest h
    simp [process_shapes, h]

/-- Closed instance of `rasterize_item_normalization`: a pair with an
explicit `None` value contributes its geometry with the fill value `7`. -/
theorem rasterize_item_normalization_witness :
    process_shapes 7 3 0
        [ShapeItem.pair
          (GeoObj.mk (some "Point") (some (.arr [.num 1, .num 2])) none none)
          none]
      = some ([(GeoObj.mk (some "Point")
          (some (.arr [.num 1, .num 2])) none none, 7)], [7], []) := by
  rw [(rasterize_item_normalization 7 3).2.2.2.2 0 _ []
    (by simp [item_geom_value, is_valid_geom, leaf_check, lenGE, clen,
      geom_types])]
  simp [process_shapes, item_geom_value, flatten_item, GeoObj.type?]

lemma process_shapes_warns (fill dv : ℚ) (shapes : List ShapeItem) :
    ∀ (n : Nat) (vs : List (GeoObj × ℚ)) (svs : List ℚ) (ws : List Nat),
      process_shapes fill dv n shapes = some (vs, svs, ws) →
      ∀ i, i ∈ ws ↔ ∃ j item, shapes.get? j = some item ∧ i = n + j ∧
        is_valid_geom (item_geom_value fill dv item).1 = some false := by
  induction shapes with
  | nil =>
    intro n vs svs ws h i
    simp only [process_shapes, Option.some.injEq, Prod.mk.injEq] at h
    obtain ⟨rfl, rfl, rfl⟩ := h
    simp
  | cons item rest ih =>
    intro n vs svs ws h i
    simp only [process_shapes] at h
    cases hv : is_valid_geom (item_geom_value fill dv item).1 with
    | none => rw [hv] at h; simp at h
    | some b =>
      rw [hv] at h
      cases hr : process_shapes fill dv (n + 1) rest with
      | none => rw [hr] at h; cases b <;> simp at h
      | some r =>
        obtain ⟨vs2, svs2, ws2⟩ := r
        rw [hr] at h
        cases b
        · simp only [Option.map_some', Option.some.injEq, Prod.mk.injEq] at h
          obtain ⟨rfl, rfl, rfl⟩ := h
          have ihr := ih (n + 1) vs2 svs2 ws2 hr
          constructor
          · intro hi
            rcases List.mem_cons.mp hi with rfl | hi2
            · exact ⟨0, item, rfl, by omega, hv⟩
            · obtain ⟨j, it, hj, hij, hinv⟩ := (ihr i).mp hi2
              exact ⟨j + 1, it, by simpa using hj, by omega, hinv⟩
          · rintro ⟨j, it, hj, rfl, hinv⟩
            cases j with
            | zero =>
              simp only [List.get?] at hj
              injection hj with hj
              subst hj
              simp
            | succ j2 =>
              simp only [List.get?] at hj
              refine List.mem_cons_of_mem _ ((ihr (n + (j2 + 1))).mpr ?_)
              exact ⟨j2, it, hj, by omega, hinv⟩
        · simp only [Option.map_some', Option.some.injEq, Prod.mk.injEq] at h
          obtain ⟨rfl, rfl, rfl⟩ := h
          have ihr := ih (n + 1) vs2 svs2 ws2 hr
          constructor
          · intro hi
            obtain ⟨j, it, hj, hij, hinv⟩ := (ihr i).mp hi
            exact ⟨j + 1, it, by simpa using hj, by omega, hinv⟩
          · rintro ⟨j, it, hj, rfl, hinv⟩
            cases j with
            | zero =>
              simp only [List.get?] at hj
              injection hj with hj
              subst hj
              rw [hv] at hinv
              cases hinv
            | succ j2 =>
              simp only [List.get?] at hj
              exact (ihr (n + (j2 + 1))).mpr ⟨j2, it, hj, by omega, hinv⟩

/-- C1: when the validation loop leaves zero valid geometries, `rasterize`
fails with the no-valid-geometry `ValueError`, keeping the per-index
warnings already emitted; the warnings are exactly the original indices of
the invalid items; and invalid items alone do not abort the call — with at
least one valid shape (and a fresh 2-D output) the call succeeds. -/
theorem rasterize_no_valid_geometry (cov : GeoObj → Nat × Nat → Bool)
    (shapes : List ShapeItem) (out_shape : Option (List Nat)) (fill : ℚ)
    (out : Option Raster) (merge_alg : MergeKind) (dv : ℚ)
    (dtype : Option NpDtype) (vs : List (GeoObj × ℚ)) (svs : List ℚ)
    (ws : List Nat)
    (hpre : rasterize_prechecks fill dv dtype = none)
    (hps : process_shapes fill dv 0 shapes = some (vs, svs, ws)) :
    (vs = [] →
      rasterize cov shapes out_shape fill out merge_alg dv dtype =
        (ws, .error .noValidGeometry)) ∧
    (∀ i, i ∈ ws ↔ ∃ item, shapes.get? i = some item ∧
      is_valid_geom (item_geom_value fill dv item).1 = some false) ∧
    (∀ r c, vs ≠ [] → dtype = none → r ≠ 0 → c ≠ 0 →
      rasterize cov shapes (some [r, c]) fill none merge_alg dv none =
        (ws, .ok ⟨get_minimum_dtype (svs ++ [fill]), [r, c],
          rasterize_burn cov vs merge_alg (fun _ => fill)⟩)) := by
  refine ⟨?_, ?_, ?_⟩
  · rintro rfl
    simp [rasterize, hpre, hps]
  · intro i
    rw [process_shapes_warns fill dv shapes 0 vs svs ws hps i]
    constructor
    · rintro ⟨j, item, hj, rfl, hinv⟩
      exact ⟨item, by simpa using hj, hinv⟩
    · rintro ⟨item, hj, hinv⟩
      exact ⟨i, item, hj, by omega, hinv⟩
  · intro r c hvs hdt hr hc
    exact rasterize_fresh_ok cov shapes fill merge_alg dv r c vs svs ws
      hps hvs hr hc

/-- Closed instance of `rasterize_no_valid_geometry`: one invalid shape
(an empty `Point`) yields the warning for index 0 and the fatal
no-valid-geometry error. -/
theorem rasterize_no_valid_geometry_witness :
    rasterize (fun _ _ => false)
        [ShapeItem.bare (GeoObj.mk (some "Point") (some (.arr [])) none none)]
        (some [4, 4]) 0 none .replace 1 none
      = ([0], .error .noValidGeometry) := by
  refine (rasterize_no_valid_geometry (fun _ _ => false) _ (some [4, 4]) 0
    none .replace 1 none [] [] [0] (prechecks_none_dtype 0 1) ?_).1 rfl
  simp [process_shapes, item_geom_value, is_valid_geom, leaf_check, lenGE,
    clen, geom_types]

/-- Position of a dtype in the lattice's widening order: bit width, with
floats ranked after every integer kind that could be preferred to them. -/
def widening_rank : NpDtype → Nat
  | .int8 => 8
  | .uint8 => 8
  | .float16 => 24
  | .int16 => 16
  | .uint16 => 16
  | .int32 => 32
  | .uint32 => 32
  | .float32 => 40
  | .int64 => 64
  | .uint64 => 64
  | .float64 => 64

lemma uint8_nonneg (v : ℚ) (h : can_hold .uint8 v = true) : 0 ≤ v := by
  simp [can_hold] at h
  exact h.2.1

lemma uint16_nonneg (v : ℚ) (h : can_hold .uint16 v = true) : 0 ≤ v := by
  simp [can_hold] at h
  exact h.2.1

lemma uint32_nonneg (v : ℚ) (h : can_hold .uint32 v = true) : 0 ≤ v := by
  simp [can_hold] at h
  exact h.2.1

lemma uint8_den (v : ℚ) (h : can_hold .uint8 v = true) : v.den = 1 := by
  simp [can_hold] at h
  exact h.1

lemma uint16_den (v : ℚ) (h : can_hold .uint16 v = true) : v.den = 1 := by
  simp [can_hold] at h
  exact h.1

lemma uint32_den (v : ℚ) (h : can_hold .uint32 v = true) : v.den = 1 := by
  simp [can_hold] at h
  exact h.1

lemma int16_den (v : ℚ) (h : can_hold .int16 v = true) : v.den = 1 := by
  simp [can_hold] at h
  exact h.1

lemma int32_den (v : ℚ) (h : can_hold .int32 v = true) : v.den = 1 := by
  simp [can_hold] at h
  exact h.1

lemma int16_to_uint16 (v : ℚ) (h0 : 0 ≤ v) (h : can_hold .int16 v = true) :
    can_hold .uint16 v = true := by
  simp [can_hold] at h ⊢
  exact ⟨h.1, h0, by linarith [h.2.2]⟩

lemma int32_to_uint32 (v : ℚ) (h0 : 0 ≤ v) (h : can_hold .int32 v = true) :
    can_hold .uint32 v = true := by
  simp [can_hold] at h ⊢
  exact ⟨h.1, h0, by linarith [h.2.2]⟩

lemma get_minimum_dtype_min (values : List ℚ) :
    (∀ v ∈ values, can_hold (get_minimum_dtype values) v = true) ∧
    (∀ d ∈ valid_dtypes, (∀ v ∈ values, can_hold d v = true) →
      widening_rank (get_minimum_dtype values) ≤ widening_rank d) ∧
    ((∀ v ∈ values, 0 ≤ v) →
      get_minimum_dtype values ≠ .int16 ∧ get_minimum_dtype values ≠ .int32) := by
  unfold get_minimum_dtype
  by_cases hden : values.all (fun v => decide (v.den = 1)) = true
  · rw [if_pos hden]
    by_cases hpos : values.all (fun v => decide (0 ≤ v)) = true
    · rw [if_pos hpos]
      have hposm : ∀ v ∈ values, 0 ≤ v := by
        simpa [List.all_eq_true] using hpos
      by_cases h8 : values.all (can_hold .uint8) = true
      · rw [if_pos h8]
        refine ⟨by simpa [List.all_eq_true] using h8, ?_, by simp⟩
        intro d hd hall
        fin_cases hd <;> simp [widening_rank]
      · rw [if_neg h8]
        have h8m : ¬ ∀ v ∈ values, can_hold .uint8 v = true := by
          simpa [List.all_eq_true] using h8
        by_cases h16 : values.all (can_hold .uint16) = true
        · rw [if_pos h16]
          refine ⟨by simpa [List.all_eq_true] using h16, ?_, by simp⟩
          intro d hd hall
          fin_cases hd
          · simp [widening_rank]
          · simp [widening_rank]
          · exact absurd hall h8m
          · simp [widening_rank]
          · simp [widening_rank]
          · simp [widening_rank]
          · simp [widening_rank]
        · rw [if_neg h16]
          have h16m : ¬ ∀ v ∈ values, can_hold .uint16 v = true := by
            simpa [List.all_eq_true] using h16
          by_cases h32 : values.all (can_hold .uint32) = true
          · rw [if_pos h32]
            refine ⟨by simpa [List.all_eq_true] using h32, ?_, by simp⟩
            intro d hd hall
            fin_cases hd
            · exact absurd (fun v hv =>
                int16_to_uint16 v (hposm v hv) (hall v hv)) h16m
            · simp [widening_rank]
            · exact absurd hall h8m
            · exact absurd hall h16m
            · simp [widening_rank]
            · simp [widening_rank]
            · simp [widening_rank]
          · rw [if_neg h32]
            have h32m : ¬ ∀ v ∈ values, can_hold .uint32 v = true := by
              simpa [List.all_eq_true] using h32
            by_cases hf : values.all (can_hold .float32) = true
            · rw [if_pos hf]
              refine ⟨by simpa [List.all_eq_true] using hf, ?_, by simp⟩
              intro d hd hall
              fin_cases hd
              · exact absurd (fun v hv =>
                  int16_to_uint16 v (hposm v hv) (hall v hv)) h16m
              · exact absurd (fun v hv =>
                  int32_to_uint32 v (hposm v hv) (hall v hv)) h32m
              · exact absurd hall h8m
              · exact absurd hall h16m
              · exact absurd hall h32m
              · simp [widening_rank]
              · simp [widening_rank]
            · rw [if_neg hf]
              have hfm : ¬ ∀ v ∈ values, can_hold .float32 v = true := by
                simpa [List.all_eq_true] using hf
              refine ⟨fun v _ => rfl, ?_, by simp⟩
              intro d hd hall
              fin_cases hd
              · exact absurd (fun v hv =>
                  int16_to_uint16 v (hposm v hv) (hall v hv)) h16m
              · exact absurd (fun v hv =>
                  int32_to_uint32 v (hposm v hv) (hall v hv)) h32m
              · exact absurd hall h8m
              · exact absurd hall h16m
              · exact absurd hall h32m
              · exact absurd hall hfm
              · simp [widening_rank]
    · rw [if_neg hpos]
      have hneg : ∃ v ∈ values, ¬ 0 ≤ v := by
        by_contra hcon
        push_neg at hcon
        exact hpos (by simpa [List.all_eq_true] using hcon)
      obtain ⟨v0, hv0, hvneg⟩ := hneg
      by_cases h16 : values.all (can_hold .int16) = true
      · rw [if_pos h16]
        refine ⟨by simpa [List.all_eq_true] using h16, ?_, ?_⟩
        · intro d hd hall
          fin_cases hd
          · simp [widening_rank]
          · simp [widening_rank]
          · exact absurd (uint8_nonneg v0 (hall v0 hv0)) hvneg
          · exact absurd (uint16_nonneg v0 (hall v0 hv0)) hvneg
          · exact absurd (uint32_nonneg v0 (hall v0 hv0)) hvneg
          · simp [widening_rank]
          · simp [widening_rank]
        · intro hforall
          exact absurd (hforall v0 hv0) hvneg
      · rw [if_neg h16]
        have h16m : ¬ ∀ v ∈ values, can_hold .int16 v = true := by
          simpa [List.all_eq_true] using h16
        by_cases h32 : values.all (can_hold .int32) = true
        · rw [if_pos h32]
          refine ⟨by simpa [List.all_eq_true] using h32, ?_, ?_⟩
          · intro d hd hall
            fin_cases hd
            · exact absurd hall h16m
            · simp [widening_rank]
            · exact absurd (uint8_nonneg v0 (hall v0 hv0)) hvneg
            · exact absurd (uint16_nonneg v0 (hall v0 hv0)) hvneg
            · exact absurd (uint32_nonneg v0 (hall v0 hv0)) hvneg
            · simp [widening_rank]
            · simp [widening_rank]
          · intro hforall
            exact absurd (hforall v0 hv0) hvneg
        · rw [if_neg h32]
          have h32m : ¬ ∀ v ∈ values, can_hold .int32 v = true := by
            simpa [List.all_eq_true] using h32
          by_cases hf : values.all (can_hold .float32) = true
          · rw [if_pos hf]
            refine ⟨by simpa [List.all_eq_true] using hf, ?_, by simp⟩
            intro d hd hall
            fin_cases hd
            · exact absurd hall h16m
            · exact absurd hall h32m
            · exact absurd (uint8_nonneg v0 (hall v0 hv0)) hvneg
            · exact absurd (uint16_nonneg v0 (hall v0 hv0)) hvneg
            · exact absurd (uint32_nonneg v0 (hall v0 hv0)) hvneg
            · simp [widening_rank]
            · simp [widening_rank]
          · rw [if_neg hf]
            have hfm : ¬ ∀ v ∈ values, can_hold .float32 v = true := by
              simpa [List.all_eq_true] using hf
            refine ⟨fun v _ => rfl, ?_, by simp⟩
            intro d hd hall
            fin_cases hd
            · exact absurd hall h16m
            · exact absurd hall h32m
            · exact absurd (uint8_nonneg v0 (hall v0 hv0)) hvneg
            · exact absurd (uint16_nonneg v0 (hall v0 hv0)) hvneg
            · exact absurd (uint32_nonneg v0 (hall v0 hv0)) hvneg
            · exact absurd hall hfm
            · simp [widening_rank]
  · rw [if_neg hden]
    have hq : ∃ v ∈ values, v.den ≠ 1 := by
      by_contra hcon
      push_neg at hcon
      exact hden (by simpa [List.all_eq_true] using hcon)
    obtain ⟨v0, hv0, hvden⟩ := hq
    by_cases hf : values.all (can_hold .float32) = true
    · rw [if_pos hf]
      refine ⟨by simpa [List.all_eq_true] using hf, ?_, by simp⟩
      intro d hd hall
      fin_cases hd
      · exact absurd (int16_den v0 (hall v0 hv0)) hvden
      · exact absurd (int32_den v0 (hall v0 hv0)) hvden
      · exact absurd (uint8_den v0 (hall v0 hv0)) hvden
      · exact absurd (uint16_den v0 (hall v0 hv0)) hvden
      · exact absurd (uint32_den v0 (hall v0 hv0)) hvden
      · simp [widening_rank]
      · simp [widening_rank]
    · rw [if_neg hf]
      have hfm : ¬ ∀ v ∈ values, can_hold .float32 v = true := by
        simpa [List.all_eq_true] using hf
      refine ⟨fun v _ => rfl, ?_, by simp⟩
      intro d hd hall
      fin_cases hd
      · exact absurd (int16_den v0 (hall v0 hv0)) hvden
      · exact absurd (int32_den v0 (hall v0 hv0)) hvden
      · exact absurd (uint8_den v0 (hall v0 hv0)) hvden
      · exact absurd (uint16_den v0 (hall v0 hv0)) hvden
      · exact absurd (uint32_den v0 (hall v0 hv0)) hvden
      · exact absurd hall hfm
      · simp [widening_rank]

/-- C2: with no explicit dtype and no pre-existing buffer, `rasterize`
resolves the dtype as the minimum dtype of the shape values together with
`fill` — which holds every such value, is of minimal widening rank among
lattice members that hold them all, and is never a signed integer kind
when all values are non-negative — and returns a fresh buffer of the
requested 2-D shape whose pixels not covered by any shape equal `fill`. -/
theorem rasterize_default_dtype (cov : GeoObj → Nat × Nat → Bool)
    (shapes : List ShapeItem) (fill : ℚ) (merge_alg : MergeKind) (dv : ℚ)
    (r c : Nat) (vs : List (GeoObj × ℚ)) (svs : List ℚ) (ws : List Nat)
    (hps : process_shapes fill dv 0 shapes = some (vs, svs, ws))
    (hvs : vs ≠ []) (hr : r ≠ 0) (hc : c ≠ 0) :
    ∃ buf, rasterize cov shapes (some [r, c]) fill none merge_alg dv none =
        (ws, .ok buf) ∧
      buf.dtype = get_minimum_dtype (svs ++ [fill]) ∧
      buf.shape = [r, c] ∧
      (∀ v ∈ svs ++ [fill], can_hold buf.dtype v = true) ∧
      (∀ d ∈ valid_dtypes, (∀ v ∈ svs ++ [fill], can_hold d v = true) →
        widening_rank buf.dtype ≤ widening_rank d) ∧
      ((∀ v ∈ svs ++ [fill], 0 ≤ v) →
        buf.dtype ≠ .int16 ∧ buf.dtype ≠ .int32) ∧
      (∀ p, (∀ gv ∈ vs, cov gv.1 p = false) → buf.data p = fill) := by
  refine ⟨_, rasterize_fresh_ok cov shapes fill merge_alg dv r c vs svs ws
    hps hvs hr hc, rfl, rfl, ?_, ?_, ?_, ?_⟩
  · exact (get_minimum_dtype_min (svs ++ [fill])).1
  · exact (get_minimum_dtype_min (svs ++ [fill])).2.1
  · exact (get_minimum_dtype_min (svs ++ [fill])).2.2
  · intro p hp
    exact rasterize_burn_untouched cov vs merge_alg _ p hp

/-- Closed instance of `rasterize_default_dtype`: a single point valued
`300` with `fill = 0` resolves to a fresh raster (whose dtype, by
evaluation, is `uint16`). -/
theorem rasterize_default_dtype_witness :
    get_minimum_dtype ([300] ++ [0]) = .uint16 ∧
    ∃ buf, rasterize (fun _ _ => false)
        [ShapeItem.pair
          (GeoObj.mk (some "Point") (some (.arr [.num 1, .num 2])) none none)
          (some 300)]
        (some [2, 2]) 0 none .replace 1 none = ([], .ok buf) ∧
      buf.dtype = get_minimum_dtype ([300] ++ [0]) ∧
      buf.shape = [2, 2] ∧
      (∀ v ∈ [(300 : ℚ)] ++ [0], can_hold buf.dtype v = true) ∧
      (∀ d ∈ valid_dtypes, (∀ v ∈ [(300 : ℚ)] ++ [0], can_hold d v = true) →
        widening_rank buf.dtype ≤ widening_rank d) ∧
      ((∀ v ∈ [(300 : ℚ)] ++ [0], 0 ≤ v) →
        buf.dtype ≠ .int16 ∧ buf.dtype ≠ .int32) ∧
      (∀ p, (∀ gv ∈ [(GeoObj.mk (some "Point")
          (some (.arr [.num 1, .num 2])) none none, (300 : ℚ))],
          (fun (_ : GeoObj) (_ : Nat × Nat) => false) gv.1 p = false) →
        buf.data p = 0) :=
  ⟨by decide,
   rasterize_default_dtype (fun _ _ => false) _ 0 .replace 1 2 2
     [(GeoObj.mk (some "Point") (some (.arr [.num 1, .num 2])) none none, 300)]
     [300] []
     (by simp [process_shapes, item_geom_value, is_valid_geom, leaf_check,
       lenGE, clen, geom_types, flatten_item, GeoObj.type?])
     (by simp) (by omega) (by omega)⟩

/-- C8: with an explicit dtype, `rasterize` fails with the invalid-dtype
error when the dtype is outside the admissible lattice, and with the
shape-values cast error when some valid shape value is not losslessly
castable into it; in either case the result is the error alone, no
raster. -/
theorem rasterize_explicit_dtype (cov : GeoObj → Nat × Nat → Bool)
    (shapes : List ShapeItem) (out_shape : Option (List Nat)) (fill : ℚ)
    (out : Option Raster) (merge_alg : MergeKind) (dv : ℚ) (d : NpDtype)
    (hf : ¬(fill ≠ 0 ∧ cast_to_explicit_fails fill (some d) = true))
    (hd : ¬(dv ≠ 1 ∧ cast_to_explicit_fails dv (some d) = true)) :
    (d ∉ valid_dtypes →
      rasterize cov shapes out_shape fill out merge_alg dv (some d) =
        ([], .error (.invalidDtype "dtype"))) ∧
    (∀ (vs : List (GeoObj × ℚ)) (svs : List ℚ) (ws : List Nat),
      d ∈ valid_dtypes →
      process_shapes fill dv 0 shapes = some (vs, svs, ws) →
      vs ≠ [] → can_cast_dtype svs d = false →
      rasterize cov shapes out_shape fill out merge_alg dv (some d) =
        (ws, .error (.castError "shape values"))) := by
  constructor
  · intro hmem
    have hpre : rasterize_prechecks fill dv (some d) =
        some (.invalidDtype "dtype") := by
      simp only [rasterize_prechecks]
      rw [if_neg (by simp [validate_dtype_true]), if_neg hf,
        if_neg (by simp [validate_dtype_true]), if_neg hd,
        if_pos (by simp [hmem])]
    simp [rasterize, hpre]
  · intro vs svs ws hmem hps hvs hcast
    have hpre : rasterize_prechecks fill dv (some d) = none := by
      simp only [rasterize_prechecks]
      rw [if_neg (by simp [validate_dtype_true]), if_neg hf,
        if_neg (by simp [validate_dtype_true]), if_neg hd,
        if_neg (by simp [hmem])]
    simp [rasterize, hpre, hps, hvs, validate_dtype_true, hcast]

/-- Closed instance of `rasterize_explicit_dtype`: requesting the
non-lattice dtype `int64` fails with the invalid-dtype error. -/
theorem rasterize_explicit_dtype_witness :
    rasterize (fun _ _ => false)
        [ShapeItem.bare
          (GeoObj.mk (some "Point") (some (.arr [.num 1, .num 2])) none none)]
        (some [2, 2]) 0 none .replace 1 (some .int64)
      = ([], .error (.invalidDtype "dtype")) :=
  (rasterize_explicit_dtype (fun _ _ => false) _ (some [2, 2]) 0 none
    .replace 1 .int64 (by simp) (by simp)).1 (by decide)

lemma flatten_item_value (g : GeoObj) (v : ℚ) :
    ∀ gv ∈ flatten_item g v, gv.2 = v := by
  intro gv hgv
  unfold flatten_item at hgv
  split at hgv
  · simp only [List.mem_map] at hgv
    obtain ⟨part, _, rfl⟩ := hgv
    rfl
  · simp only [List.mem_singleton] at hgv
    subst hgv
    rfl

lemma process_shapes_bare_values (fill dv : ℚ) (geoms : List ShapeItem) :
    ∀ (n : Nat) (vs : List (GeoObj × ℚ)) (svs : List ℚ) (ws : List Nat),
      (∀ item ∈ geoms, ∃ g, item = .bare g) →
      process_shapes fill dv n geoms = some (vs, svs, ws) →
      ∀ gv ∈ vs, gv.2 = dv := by
  induction geoms with
  | nil =>
    intro n vs svs ws hb h
    simp only [process_shapes, Option.some.injEq, Prod.mk.injEq] at h
    obtain ⟨rfl, -, -⟩ := h
    simp
  | cons item rest ih =>
    intro n vs svs ws hb h
    obtain ⟨g, rfl⟩ := hb item (by simp)
    simp only [process_shapes, item_geom_value] at h
    cases hv : is_valid_geom g with
    | none => rw [hv] at h; simp at h
    | some b =>
      rw [hv] at h
      cases hr : process_shapes fill dv (n + 1) rest with
      | none => rw [hr] at h; cases b <;> simp at h
      | some r =>
        obtain ⟨vs2, svs2, ws2⟩ := r
        rw [hr] at h
        cases b
        · simp only [Option.map_some', Option.some.injEq, Prod.mk.injEq] at h
          obtain ⟨rfl, -, -⟩ := h
          exact ih (n + 1) vs2 svs2 ws2 (fun x hx => hb x (by simp [hx])) hr
        · simp only [Option.map_some', Option.some.injEq, Prod.mk.injEq] at h
          obtain ⟨rfl, -, -⟩ := h
          intro gv hgv
          rcases List.mem_append.mp hgv with hgv1 | hgv2
          · exact flatten_item_value g dv gv hgv1
          · exact ih (n + 1) vs2 svs2 ws2
              (fun x hx => hb x (by simp [hx])) hr gv hgv2

/-- C10: `geometry_mask` is `rasterize` with `(fill, default_value)`
equal to `(1, 0)` — or `(0, 1)` when inverted — cast to bool; hence for
bare geometries, pixels covered by some geometry get `invert` and all
other pixels get `¬invert`. -/
theorem geometry_mask_spec (cov : GeoObj → Nat × Nat → Bool)
    (geoms : List ShapeItem) (out_shape : List Nat) (invert : Bool) :
    (geometry_mask cov geoms out_shape invert =
      ((rasterize cov geoms (some out_shape) (if invert then 0 else 1) none
          .replace (if invert then 1 else 0) none).1,
        (rasterize cov geoms (some out_shape) (if invert then 0 else 1) none
          .replace (if invert then 1 else 0) none).2.map astype_bool)) ∧
    (∀ (r c : Nat) (vs : List (GeoObj × ℚ)) (svs : List ℚ) (ws : List Nat),
      (∀ item ∈ geoms, ∃ g, item = .bare g) →
      process_shapes (if invert then 0 else 1) (if invert then 1 else 0) 0
        geoms = some (vs, svs, ws) →
      vs ≠ [] → out_shape = [r, c] → r ≠ 0 → c ≠ 0 →
      ∃ mask, geometry_mask cov geoms out_shape invert = (ws, .ok mask) ∧
        mask.shape = [r, c] ∧
        (∀ p, (∃ gv ∈ vs, cov gv.1 p = true) → mask.data p = invert) ∧
        (∀ p, (∀ gv ∈ vs, cov gv.1 p = false) → mask.data p = !invert)) := by
  constructor
  · cases invert <;> rfl
  · intro r c vs svs ws hb hps hvs hsh hr hc
    subst hsh
    have hval : ∀ gv ∈ vs, gv.2 = (if invert then (1 : ℚ) else 0) :=
      process_shapes_bare_values _ _ geoms 0 vs svs ws hb hps
    have hfr := rasterize_fresh_ok cov geoms (if invert then (0 : ℚ) else 1)
      .replace (if invert then (1 : ℚ) else 0) r c vs svs ws hps hvs hr hc
    have hunf : geometry_mask cov geoms [r, c] invert =
        ((rasterize cov geoms (some [r, c]) (if invert then 0 else 1) none
            .replace (if invert then 1 else 0) none).1,
          (rasterize cov geoms (some [r, c]) (if invert then 0 else 1) none
            .replace (if invert then 1 else 0) none).2.map astype_bool) := by
      cases invert <;> rfl
    refine ⟨astype_bool ⟨get_minimum_dtype
        (svs ++ [if invert then (0 : ℚ) else 1]), [r, c],
        rasterize_burn cov vs .replace
          (fun _ => if invert then (0 : ℚ) else 1)⟩, ?_, rfl, ?_, ?_⟩
    · rw [hunf, hfr]
      rfl
    · intro p hpcov
      have hb2 := rasterize_burn_replace_covered cov vs
        (fun _ => if invert then (0 : ℚ) else 1) p
        (if invert then (1 : ℚ) else 0) hval hpcov
      simp only [astype_bool, hb2]
      cases invert <;> simp
    · intro p hpunc
      have hb2 := rasterize_burn_untouched cov vs .replace
        (fun _ => if invert then (0 : ℚ) else 1) p hpunc
      simp only [astype_bool, hb2]
      cases invert <;> simp

/-- Closed instance of `geometry_mask_spec`: one valid point, coverage at
pixel `(0,0)` only, `invert = false`. -/
theorem geometry_mask_spec_witness :
    ∃ mask, geometry_mask (fun _ p => decide (p = (0, 0)))
        [ShapeItem.bare
          (GeoObj.mk (some "Point") (some (.arr [.num 1, .num 2])) none none)]
        [2, 2] false = ([], .ok mask) ∧
      mask.shape = [2, 2] ∧
      (∀ p, (∃ gv ∈ [(GeoObj.mk (some "Point")
            (some (.arr [.num 1, .num 2])) none none, (0 : ℚ))],
          (fun (_ : GeoObj) (q : Nat × Nat) => decide (q = (0, 0))) gv.1 p
            = true) →
        mask.data p = false) ∧
      (∀ p, (∀ gv ∈ [(GeoObj.mk (some "Point")
            (some (.arr [.num 1, .num 2])) none none, (0 : ℚ))],
          (fun (_ : GeoObj) (q : Nat × Nat) => decide (q = (0, 0))) gv.1 p
            = false) →
        mask.data p = !false) :=
  (geometry_mask_spec (fun _ p => decide (p = (0, 0))) _ _ false).2 2 2
    [(GeoObj.mk (some "Point") (some (.arr [.num 1, .num 2])) none none, 0)]
    [0] []
    (by intro item h; simp only [List.mem_singleton] at h; exact ⟨_, h⟩)
    (by simp [process_shapes, item_geom_value, is_valid_geom, leaf_check,
      lenGE, clen, geom_types, flatten_item, GeoObj.type?])
    (by simp) rfl (by omega) (by omega)

/-- Modelled from the spec (§3 AffineTransform; the `affine` library is not
under `src/`): a 6-coefficient pixel↔world transform
`(x, y) ↦ (a x + b y + c, d x + e y + f)`. -/
structure Affine where
  a : ℚ
  b : ℚ
  c : ℚ
  d : ℚ
  e : ℚ
  f : ℚ
deriving DecidableEq, Repr

/-- Apply a transform to a point. -/
def Affine.app (t : Affine) (x y : ℚ) : ℚ × ℚ :=
  (t.a * x + t.b * y + t.c, t.d * x + t.e * y + t.f)

/-- Transform composition: `t.comp u` applies `u` first, matching the
`affine` library's `t * u`. -/
def Affine.comp (t u : Affine) : Affine :=
  ⟨t.a * u.a + t.b * u.d, t.a * u.b + t.b * u.e, t.a * u.c + t.b * u.f + t.c,
   t.d * u.a + t.e * u.d, t.d * u.b + t.e * u.e, t.d * u.c + t.e * u.f + t.f⟩

/-- `Affine.translation(tx, ty)`. -/
def Affine.translation (tx ty : ℚ) : Affine := ⟨1, 0, tx, 0, 1, ty⟩

/-- `Affine.scale(sx, sy)`. -/
def Affine.scale (sx sy : ℚ) : Affine := ⟨sx, 0, 0, 0, sy, 0⟩

/-- A pixel-space window `(col_off, row_off, width, height)`, real-valued
until rounded (spec §3). -/
structure WindowQ where
  col_off : ℚ
  row_off : ℚ
  width : ℚ
  height : ℚ
deriving DecidableEq, Repr

/-- Errors out of `geometry_window`: `windowError` when the window misses
the raster; `noBounds` is a model artifact for geometries without an
embedded bbox (the native bounds fallback) or an empty shape iterable. -/
inductive WinErr where
  | windowError
  | noBounds
deriving DecidableEq, Repr

/-- Modelled from the spec (§4.3; `rasterio.windows` is not under `src/`):
two windows intersect when they strictly overlap on both axes; an empty
intersection fails with `WindowError`. -/
def WindowQ.intersection (w1 w2 : WindowQ) : Except WinErr WindowQ :=
  let l := max w1.col_off w2.col_off
  let t := max w1.row_off w2.row_off
  let rr := min (w1.col_off + w1.width) (w2.col_off + w2.width)
  let b := min (w1.row_off + w1.height) (w2.row_off + w2.height)
  if l < rr ∧ t < b then .ok ⟨l, t, rr - l, b - t⟩
  else .error .windowError

/-- The dataset collaborator (spec §6): pixel dimensions, affine
transform and pixel sizes, read-only for this layer. -/
structure Dataset where
  width : Nat
  height : Nat
  transform : Affine
  resx : ℚ
  resy : ℚ

/-- Modelled from the spec (§4.3, §6: the dataset's
`window(left, bottom, right, top)` maps a world envelope to a pixel
window via the forward pixel-mapping; axis-aligned transforms,
`b = d = 0`). -/
def Dataset.window (ds : Dataset) (left bottom right top : ℚ) : WindowQ :=
  let colL := (left - ds.transform.c) / ds.transform.a
  let colR := (right - ds.transform.c) / ds.transform.a
  let rowT := (top - ds.transform.f) / ds.transform.e
  let rowB := (bottom - ds.transform.f) / ds.transform.e
  ⟨colL, rowT, colR - colL, rowB - rowT⟩

/-- Flooring a value to `p` decimal places (spec §4.3: "floor the
window's offsets to `pixel_precision` decimal places"; the
`round_offsets` helper of `rasterio.windows` is not under `src/`). -/
def floor_prec (q : ℚ) (p : Nat) : ℚ := (⌊q * 10 ^ p⌋ : ℚ) / 10 ^ p

/-- The common tail of `geometry_window` (`features.py` lines 429-432):
floor the offsets to `pixel_precision` decimal places and take width and
height as the ceiling of the original extent plus the fractional offset
correction. -/
def floor_window (w : WindowQ) (pixel_precision : Nat) : WindowQ :=
  let co := floor_prec w.col_off pixel_precision
  let ro := floor_prec w.row_off pixel_precision
  ⟨co, ro, (⌈w.width + w.col_off - co⌉ : ℚ), (⌈w.height + w.row_off - ro⌉ : ℚ)⟩

/-- Embedding of `bounds` (`features.py` lines 331-353) for plain
geometries: the embedded `bbox` is returned when present (note the source
returns it ignoring any transform argument).  The native `_bounds`
fallback is not under `src/` and the spec gives no algorithm for it
("else computes it"), so it is represented as `none` (unavailable to the
model). -/
def boundsG (g : GeoObj) : Option (ℚ × ℚ × ℚ × ℚ) := g.bbox?

/-- Bounds of every shape, `none` when any geometry lacks a bbox. -/
def allBounds : List GeoObj → Option (List (ℚ × ℚ × ℚ × ℚ))
  | [] => some []
  | g :: rest =>
    match boundsG g with
    | none => none
    | some b => (allBounds rest).map (b :: ·)

/-- Minimum of a list of rationals (the Python `min(...)`, nonempty). -/
def qmin : List ℚ → ℚ
  | [] => 0
  | x :: r => r.foldl min x

/-- Maximum of a list of rationals (the Python `max(...)`, nonempty). -/
def qmax : List ℚ → ℚ
  | [] => 0
  | x :: r => r.foldl max x

/-- The branch-specific part of `geometry_window` (`features.py` lines
391-428): pad scaling, per-branch envelope computation (axis-aligned or
rotated with pixel-space clamping and world round-trip), ending at the
`dataset.window` call.  Returns the unfloored window, or `none` when
bounds are unavailable or the shape iterable is empty. -/
def branch_window (ds : Dataset) (shapes : List GeoObj)
    (pad_x pad_y : ℚ) (north_up rotated : Bool) : Option WindowQ :=
  let px := if pad_x ≠ 0 then |pad_x * ds.resx| else pad_x
  let py := if pad_y ≠ 0 then |pad_y * ds.resy| else pad_y
  match allBounds shapes with
  | none => none
  | some [] => none
  | some bs =>
    let lefts := bs.map (·.1)
    let bottoms := bs.map (·.2.1)
    let rights := bs.map (·.2.2.1)
    let tops := bs.map (·.2.2.2)
    if ¬ rotated then
      let left := qmin lefts - px
      let right := qmax rights + px
      let bottom := if north_up then qmin bottoms - py else qmax bottoms + py
      let top := if north_up then qmax tops + py else qmin tops - py
      some (ds.window left bottom right top)
    else
      let left := qmin lefts - px
      let right := qmax rights + px
      let top := qmin tops - py
      let bottom := qmax bottoms + py
      let left2 := max 0 left
      let top2 := max 0 top
      let right2 := min (ds.width : ℚ) right
      let bottom2 := min (ds.height : ℚ) bottom
      let lt := ds.transform.app left2 top2
      let rb := ds.transform.app right2 bottom2
      some (ds.window lt.1 rb.2 rb.1 lt.2)

/-- Embedding of `geometry_window` (`features.py` lines 356-440): the
branch window is floored via `floor_window` and intersected with the
full raster window; an empty intersection raises `WindowError`. -/
def geometry_window (ds : Dataset) (shapes : List GeoObj)
    (pad_x pad_y : ℚ) (north_up rotated : Bool)
    (pixel_precision : Nat) : Except WinErr WindowQ :=
  match branch_window ds shapes pad_x pad_y north_up rotated with
  | none => .error .noBounds
  | some w =>
    (floor_window w pixel_precision).intersection
      ⟨0, 0, ds.width, ds.height⟩

lemma floor_prec_le (q : ℚ) (p : Nat) : floor_prec q p ≤ q := by
  have hp : (0 : ℚ) < 10 ^ p := by positivity
  have h1 : (⌊q * 10 ^ p⌋ : ℚ) ≤ q * 10 ^ p := Int.floor_le _
  rw [floor_prec, div_le_iff₀ hp]
  exact h1

/-- C5: the floored window produced by `floor_window` — the common tail
of both branches of `geometry_window` — fully contains the unfloored
window, and `geometry_window` (in both the rotated and non-rotated
branches, i.e. for every value of `rotated`) is exactly that floored
window intersected with the full raster window. -/
theorem floored_window_contains :
    (∀ (w : WindowQ) (p : Nat),
      (floor_window w p).col_off ≤ w.col_off ∧
      (floor_window w p).row_off ≤ w.row_off ∧
      w.col_off + w.width ≤
        (floor_window w p).col_off + (floor_window w p).width ∧
      w.row_off + w.height ≤
        (floor_window w p).row_off + (floor_window w p).height) ∧
    (∀ (ds : Dataset) (shapes : List GeoObj) (px py : ℚ)
      (nu rot : Bool) (pp : Nat) (w : WindowQ),
      branch_window ds shapes px py nu rot = some w →
      geometry_window ds shapes px py nu rot pp =
        (floor_window w pp).intersection ⟨0, 0, ds.width, ds.height⟩) := by
  constructor
  · intro w p
    refine ⟨floor_prec_le w.col_off p, floor_prec_le w.row_off p, ?_, ?_⟩
    · have := Int.le_ceil (w.width + w.col_off - floor_prec w.col_off p)
      show w.col_off + w.width ≤ floor_prec w.col_off p +
        (⌈w.width + w.col_off - floor_prec w.col_off p⌉ : ℚ)
      linarith
    · have := Int.le_ceil (w.height + w.row_off - floor_prec w.row_off p)
      show w.row_off + w.height ≤ floor_prec w.row_off p +
        (⌈w.height + w.row_off - floor_prec w.row_off p⌉ : ℚ)
      linarith
  · intro ds shapes px py nu rot pp w h
    simp [geometry_window, h]

/-- Closed instance of `floored_window_contains`: a unit-transform 4×4
dataset with one bbox geometry. -/
theorem floored_window_contains_witness :
    geometry_window ⟨4, 4, ⟨1, 0, 0, 0, -1, 0⟩, 1, 1⟩
        [GeoObj.mk none none none (some (0, -4, 4, 0))] 0 0 true false 3 =
      (floor_window ⟨0, 0, 4, 4⟩ 3).intersection ⟨0, 0, 4, 4⟩ :=
  floored_window_contains.2 ⟨4, 4, ⟨1, 0, 0, 0, -1, 0⟩, 1, 1⟩
    [GeoObj.mk none none none (some (0, -4, 4, 0))] 0 0 true false 3
    ⟨0, 0, 4, 4⟩ (by
      simp [branch_window, allBounds, boundsG, GeoObj.bbox?, qmin, qmax,
        Dataset.window])

lemma intersection_ok_iff (w1 w2 w : WindowQ) :
    w1.intersection w2 = .ok w ↔
      (max w1.col_off w2.col_off <
          min (w1.col_off + w1.width) (w2.col_off + w2.width) ∧
        max w1.row_off w2.row_off <
          min (w1.row_off + w1.height) (w2.row_off + w2.height)) ∧
      w = ⟨max w1.col_off w2.col_off, max w1.row_off w2.row_off,
        min (w1.col_off + w1.width) (w2.col_off + w2.width) -
          max w1.col_off w2.col_off,
        min (w1.row_off + w1.height) (w2.row_off + w2.height) -
          max w1.row_off w2.row_off⟩ := by
  simp only [WindowQ.intersection]
  split_ifs with h
  · constructor
    · intro he
      injection he with he
      exact ⟨h, he.symm⟩
    · rintro ⟨-, rfl⟩
      rfl
  · constructor
    · intro he
      cases he
    · rintro ⟨hc, -⟩
      exact absurd hc h

lemma intersection_error_iff (w1 w2 : WindowQ) :
    w1.intersection w2 = .error .windowError ↔
      ¬ (max w1.col_off w2.col_off <
          min (w1.col_off + w1.width) (w2.col_off + w2.width) ∧
        max w1.row_off w2.row_off <
          min (w1.row_off + w1.height) (w2.row_off + w2.height)) := by
  simp only [WindowQ.intersection]
  split_ifs with h
  · simp [h]
  · exact iff_of_true rfl h

/-- C3: the window computed by `geometry_window` is intersected with the
full raster window — any returned window lies inside the raster and has
positive extent; an empty intersection fails with `WindowError` instead
of returning a window; and a geometry whose bounds exactly match the
raster extent with zero padding yields exactly the full raster window. -/
theorem geometry_window_intersects_raster :
    (∀ (ds : Dataset) (shapes : List GeoObj) (px py : ℚ) (nu rot : Bool)
      (pp : Nat) (w : WindowQ),
      geometry_window ds shapes px py nu rot pp = .ok w →
      0 ≤ w.col_off ∧ 0 ≤ w.row_off ∧
      w.col_off + w.width ≤ ds.width ∧ w.row_off + w.height ≤ ds.height ∧
      0 < w.width ∧ 0 < w.height) ∧
    (∀ (ds : Dataset) (shapes : List GeoObj) (px py : ℚ) (nu rot : Bool)
      (pp : Nat) (w0 : WindowQ),
      branch_window ds shapes px py nu rot = some w0 →
      ¬ (max (floor_window w0 pp).col_off 0 <
          min ((floor_window w0 pp).col_off + (floor_window w0 pp).width)
            (ds.width : ℚ) ∧
        max (floor_window w0 pp).row_off 0 <
          min ((floor_window w0 pp).row_off + (floor_window w0 pp).height)
            (ds.height : ℚ)) →
      geometry_window ds shapes px py nu rot pp = .error .windowError) ∧
    (∀ (W H : Nat) (a c e f : ℚ) (g : GeoObj) (pp : Nat),
      a ≠ 0 → e ≠ 0 → W ≠ 0 → H ≠ 0 →
      g.bbox? = some (c, f + e * H, c + a * W, f) →
      geometry_window ⟨W, H, ⟨a, 0, c, 0, e, f⟩, 1, 1⟩ [g] 0 0 true false pp =
        .ok ⟨0, 0, W, H⟩) := by
  refine ⟨?_, ?_, ?_⟩
  · intro ds shapes px py nu rot pp w h
    cases hb : branch_window ds shapes px py nu rot with
    | none => rw [geometry_window, hb] at h; cases h
    | some w0 =>
      rw [geometry_window, hb] at h
      rw [intersection_ok_iff] at h
      obtain ⟨⟨hcol, hrow⟩, rfl⟩ := h
      simp only
      refine ⟨le_max_right _ _, le_max_right _ _, ?_, ?_, ?_, ?_⟩
      · have : max (floor_window w0 pp).col_off (0 : ℚ) +
            (min ((floor_window w0 pp).col_off + (floor_window w0 pp).width)
              (0 + ds.width) - max (floor_window w0 pp).col_off 0) =
            min ((floor_window w0 pp).col_off + (floor_window w0 pp).width)
              (0 + ds.width) := by ring
        rw [this]
        calc min ((floor_window w0 pp).col_off + (floor_window w0 pp).width)
              (0 + (ds.width : ℚ)) ≤ 0 + ds.width := min_le_right _ _
          _ = ds.width := by ring
      · have : max (floor_window w0 pp).row_off (0 : ℚ) +
            (min ((floor_window w0 pp).row_off + (floor_window w0 pp).height)
              (0 + ds.height) - max (floor_window w0 pp).row_off 0) =
            min ((floor_window w0 pp).row_off + (floor_window w0 pp).height)
              (0 + ds.height) := by ring
        rw [this]
        calc min ((floor_window w0 pp).row_off + (floor_window w0 pp).height)
              (0 + (ds.height : ℚ)) ≤ 0 + ds.height := min_le_right _ _
          _ = ds.height := by ring
      · linarith
      · linarith
  · intro ds shapes px py nu rot pp w0 hb hdis
    rw [geometry_window, hb, intersection_error_iff]
    simpa using hdis
  · intro W H a c e f g pp ha he hW hH hbbox
    have hbw : branch_window ⟨W, H, ⟨a, 0, c, 0, e, f⟩, 1, 1⟩ [g] 0 0 true
        false = some ⟨0, 0, (W : ℚ), (H : ℚ)⟩ := by
      simp only [branch_window, allBounds, boundsG, hbbox, Option.map_some',
        ne_eq, not_true_eq_false, if_false, ite_false]
      simp only [List.map, qmin, qmax, List.foldl]
      rw [if_pos (by trivial)]
      simp only [Dataset.window, Option.some.injEq]
      have h1 : ((c : ℚ) - 0 - c) / a = 0 := by
        rw [show (c : ℚ) - 0 - c = 0 by ring, zero_div]
      have h2 : (c + a * (W : ℚ) + 0 - c) / a = (W : ℚ) := by
        rw [show c + a * (W : ℚ) + 0 - c = a * W by ring]
        field_simp
      have h3 : ((f : ℚ) + 0 - f) / e = 0 := by
        rw [show (f : ℚ) + 0 - f = 0 by ring, zero_div]
      have h4 : (f + e * (H : ℚ) - 0 - f) / e = (H : ℚ) := by
        rw [show f + e * (H : ℚ) - 0 - f = e * H by ring]
        field_simp
      refine WindowQ.mk.injEq .. ▸ ?_
      simp_all
    simp only [geometry_window, hbw]
    have hfw : floor_window ⟨0, 0, (W : ℚ), (H : ℚ)⟩ pp =
        ⟨0, 0, (W : ℚ), (H : ℚ)⟩ := by
      simp [floor_window, floor_prec]
    rw [hfw, intersection_ok_iff]
    have hWpos : (0 : ℚ) < W := by
      have : 0 < W := Nat.pos_of_ne_zero hW
      exact_mod_cast this
    have hHpos : (0 : ℚ) < H := by
      have : 0 < H := Nat.pos_of_ne_zero hH
      exact_mod_cast this
    constructor
    · constructor <;> simp [hWpos, hHpos]
    · simp

/-- Closed instance of `geometry_window_intersects_raster`: a 4×4 raster
at origin (10, 20) with pixel size 1 and a geometry spanning exactly its
extent returns the full raster window. -/
theorem geometry_window_intersects_raster_witness :
    geometry_window ⟨4, 4, ⟨1, 0, 10, 0, -1, 20⟩, 1, 1⟩
        [GeoObj.mk none none none (some (10, 16, 14, 20))] 0 0 true false 3 =
      .ok ⟨0, 0, 4, 4⟩ :=
  geometry_window_intersects_raster.2.2 4 4 1 10 (-1) 20
    (GeoObj.mk none none none (some (10, 16, 14, 20))) 3
    (by norm_num) (by norm_num) (by norm_num) (by norm_num)
    (by norm_num [GeoObj.bbox?])

/-- The decimated target shape of `dataset_features`
(`features.py` lines 586-587): `(ceil(height / sampling),
ceil(width / sampling))` with Python true division. -/
def dataset_features_shape (height width sampling : Nat) : Nat × Nat :=
  (Int.toNat ⌈(height : ℚ) / (sampling : ℚ)⌉,
   Int.toNat ⌈(width : ℚ) / (sampling : ℚ)⌉)

/-- Python's float `%` on non-negative operands:
`x % y = x - y * floor(x / y)`. -/
def qmod (x y : ℚ) : ℚ := x - y * ⌊x / y⌋

/-- The adjusted transform of `dataset_features`
(`features.py` lines 589-599): compose a translation by the sub-pixel
remainders, then a scale by the independent x/y sampling factors. -/
def dataset_features_transform (t : Affine)
    (height width sampling : Nat) : Affine :=
  let shape := dataset_features_shape height width sampling
  let x_sampling : ℚ := (width : ℚ) / (shape.2 : ℚ)
  let y_sampling : ℚ := (height : ℚ) / (shape.1 : ℚ)
  (t.comp (Affine.translation (qmod width x_sampling)
    (qmod height y_sampling))).comp (Affine.scale x_sampling y_sampling)

lemma Affine.comp_app (t u : Affine) (x y : ℚ) :
    (t.comp u).app x y = t.app (u.app x y).1 (u.app x y).2 := by
  simp only [Affine.comp, Affine.app, Prod.mk.injEq]
  constructor <;> ring

lemma ceil_div_toNat (n k : Nat) (hk : k ≠ 0) :
    Int.toNat ⌈(n : ℚ) / (k : ℚ)⌉ = (n + k - 1) / k := by
  have hkq : (0 : ℚ) < (k : ℚ) := by exact_mod_cast Nat.pos_of_ne_zero hk
  rcases Nat.eq_zero_or_pos n with rfl | hn
  · rw [Nat.cast_zero, zero_div, Int.ceil_zero, Int.toNat_zero]
    rw [show 0 + k - 1 = k - 1 by omega, Nat.div_eq_of_lt (by omega)]
  · have hpos := Nat.pos_of_ne_zero hk
    have hmod := Nat.div_add_mod (n + k - 1) k
    have hr : (n + k - 1) % k < k := Nat.mod_lt _ hpos
    have hq1 : 1 ≤ (n + k - 1) / k := by
      rw [Nat.one_le_div_iff hpos]
      omega
    obtain ⟨q2, hq2⟩ : ∃ q2, (n + k - 1) / k = q2 + 1 :=
      ⟨(n + k - 1) / k - 1, by omega⟩
    rw [hq2] at hmod ⊢
    have hle : n ≤ k * (q2 + 1) := by
      have hexp : k * (q2 + 1) = k * q2 + k := by ring
      omega
    have hlt : k * q2 < n := by
      have hexp : k * (q2 + 1) = k * q2 + k := by ring
      omega
    have hceil : ⌈(n : ℚ) / (k : ℚ)⌉ = ((q2 + 1 : Nat) : ℤ) := by
      rw [Int.ceil_eq_iff]
      constructor
      · rw [lt_div_iff₀ hkq]
        have hcast : ((k * q2 : Nat) : ℚ) < (n : ℚ) := by exact_mod_cast hlt
        push_cast at hcast ⊢
        nlinarith
      · rw [div_le_iff₀ hkq]
        have hcast : ((n : Nat) : ℚ) ≤ ((k * (q2 + 1) : Nat) : ℚ) := by
          exact_mod_cast hle
        push_cast at hcast ⊢
        nlinarith
    rw [hceil]
    simp

lemma sampling_exact (n m : Nat) (hn : n ≠ 0) (hm : m ≠ 0) :
    qmod (n : ℚ) ((n : ℚ) / (m : ℚ)) = 0 ∧
    ((n : ℚ) / (m : ℚ)) * (m : ℚ) = (n : ℚ) := by
  have hnq : (n : ℚ) ≠ 0 := by exact_mod_cast hn
  have hmq : (m : ℚ) ≠ 0 := by exact_mod_cast hm
  have hdiv : (n : ℚ) / ((n : ℚ) / (m : ℚ)) = (m : ℚ) := by
    field_simp
  have hmul : ((n : ℚ) / (m : ℚ)) * (m : ℚ) = (n : ℚ) := by
    field_simp
  refine ⟨?_, hmul⟩
  rw [qmod, hdiv]
  rw [show ((⌊(m : ℚ)⌋ : ℚ)) = (m : ℚ) by
    rw [Int.floor_natCast]
    push_cast
    rfl]
  rw [hmul]
  ring

lemma dataset_features_shape_pos (H W k : Nat) (hk : k ≠ 0)
    (hH : H ≠ 0) (hW : W ≠ 0) :
    (dataset_features_shape H W k).1 ≠ 0 ∧
    (dataset_features_shape H W k).2 ≠ 0 := by
  unfold dataset_features_shape
  rw [ceil_div_toNat H k hk, ceil_div_toNat W k hk]
  constructor
  · simp only [ne_eq, Nat.div_eq_zero_iff (Nat.pos_of_ne_zero hk)]
    omega
  · simp only [ne_eq, Nat.div_eq_zero_iff (Nat.pos_of_ne_zero hk)]
    omega

/-- C6: for `sampling = k > 1`, the decimated target shape is exactly
`(ceil(H / k), ceil(W / k))`, and the adjusted transform
(translate-then-scale) maps the decimated image's four corner pixels to
exactly the world coordinates the original transform assigns to the
original image's corners (exact equality in the rational model, hence
within any `pixel_precision`). -/
theorem dataset_features_decimation (t : Affine) (H W k : Nat)
    (hk : 1 < k) (hH : H ≠ 0) (hW : W ≠ 0) :
    dataset_features_shape H W k = ((H + k - 1) / k, (W + k - 1) / k) ∧
    ((dataset_features_transform t H W k).app 0 0 = t.app 0 0 ∧
      (dataset_features_transform t H W k).app
        ((dataset_features_shape H W k).2 : ℚ) 0 = t.app W 0 ∧
      (dataset_features_transform t H W k).app 0
        ((dataset_features_shape H W k).1 : ℚ) = t.app 0 H ∧
      (dataset_features_transform t H W k).app
        ((dataset_features_shape H W k).2 : ℚ)
        ((dataset_features_shape H W k).1 : ℚ) = t.app W H) := by
  have hk0 : k ≠ 0 := by omega
  obtain ⟨hh2, hw2⟩ := dataset_features_shape_pos H W k hk0 hH hW
  constructor
  · unfold dataset_features_shape
    rw [ceil_div_toNat H k hk0, ceil_div_toNat W k hk0]
  · obtain ⟨hxmod, hxmul⟩ := sampling_exact W (dataset_features_shape H W k).2
      hW hw2
    obtain ⟨hymod, hymul⟩ := sampling_exact H (dataset_features_shape H W k).1
      hH hh2
    have happ : ∀ x y : ℚ,
        (dataset_features_transform t H W k).app x y =
          t.app ((W : ℚ) / ((dataset_features_shape H W k).2 : ℚ) * x)
            ((H : ℚ) / ((dataset_features_shape H W k).1 : ℚ) * y) := by
      intro x y
      unfold dataset_features_transform
      rw [Affine.comp_app, Affine.comp_app]
      simp only [Affine.scale, Affine.app, Affine.translation, hxmod, hymod]
      norm_num
    refine ⟨?_, ?_, ?_, ?_⟩
    · rw [happ]
      norm_num
    · rw [happ, hxmul]
      norm_num
    · rw [happ, hymul]
      norm_num
    · rw [happ, hxmul, hymul]

/-- Closed instance of `dataset_features_decimation`: a 5×7 raster
decimated by 3 gets shape (2, 3), and the adjusted transform sends the
decimated corner (3, 2) to the world point of the original corner
(7, 5). -/
theorem dataset_features_decimation_witness :
    dataset_features_shape 5 7 3 = (2, 3) ∧
    (dataset_features_transform ⟨2, 0, 100, 0, -2, 50⟩ 5 7 3).app 3 2 =
      (Affine.mk 2 0 100 0 (-2) 50).app 7 5 := by
  have h := dataset_features_decimation ⟨2, 0, 100, 0, -2, 50⟩ 5 7 3
    (by omega) (by omega) (by omega)
  have hshape : dataset_features_shape 5 7 3 = (2, 3) := by
    rw [h.1]
  refine ⟨hshape, ?_⟩
  have h4 := h.2.2.2.2
  rw [hshape] at h4
  simpa using h4
